import Mathlib

/-!
Verification of the dtsx_parser repository (DTSX/SSIS package parser and
diagram generator).  The Python sources under `src/dtsx_parser/` are embedded
shallowly: pure Python functions become Lean functions, in-place mutation of
the model (the graph linker) becomes explicit state passing, and Python
exceptions (`ValueError` from `int(...)`, `AttributeError` from attribute
access on `None`) become an `Except` monad.  Machine-independent Python `int`
is modelled by `Int`; Python strings by `String` over their character lists.
Python library primitives used by the source (`int(str)`, `str.isalnum`,
`str.center`, substring containment, `str.split`, `str.replace`, `str.strip`)
are modelled by the executable functions below; their doc comments state the
modelled scope.
-/

namespace Dtsx

/-- Characters Python's `str.strip()` (no argument) removes: ASCII whitespace.
(Python also strips some non-ASCII unicode spaces; the sources only ever strip
SQL text, where ASCII whitespace is what occurs.) -/
def isPySpace (c : Char) : Bool :=
  c == ' ' || c == '\t' || c == '\n' || c == '\r' || c == '\x0b' || c == '\x0c'

/-- Digit-run parser for Python `int(str)`: digits with single underscores
allowed between digits (`1_000`), most significant first. -/
def pyDigitsGo (acc : Nat) : List Char → Option Nat
  | [] => some acc
  | c :: rest =>
    if c.isDigit then pyDigitsGo (acc * 10 + (c.toNat - 48)) rest
    else if c == '_' then
      match rest with
      | d :: rest2 => if d.isDigit then pyDigitsGo (acc * 10 + (d.toNat - 48)) rest2 else none
      | [] => none
    else none

/-- See `pyDigitsGo`: a non-empty digit string (underscore separators allowed). -/
def pyDigits : List Char → Option Nat
  | [] => none
  | c :: rest => if c.isDigit then pyDigitsGo (c.toNat - 48) rest else none

/-- Models Python's built-in `int(s)` on a decimal string: optional surrounding
ASCII whitespace, optional sign, then digits (with underscore separators).
Returns `none` where Python raises `ValueError`. -/
def pyInt (s : String) : Option Int :=
  let t := ((s.toList.dropWhile isPySpace).reverse.dropWhile isPySpace).reverse
  match t with
  | '+' :: rest => (pyDigits rest).map Int.ofNat
  | '-' :: rest => (pyDigits rest).map (fun n => -(Int.ofNat n))
  | rest => (pyDigits rest).map Int.ofNat

/-- Models Python's `str.isalnum` per character, exact for all code points up
to U+00FF (ASCII alphanumerics; the Latin-1 letters, superscript digits and
vulgar fractions).  Code points above U+00FF are treated as non-alphanumeric;
no claim exercises them. -/
def pyIsAlnum (c : Char) : Bool :=
  c.isAlphanum
  || (c.toNat == 0xAA || c.toNat == 0xB2 || c.toNat == 0xB3 || c.toNat == 0xB5
      || c.toNat == 0xB9 || c.toNat == 0xBA || c.toNat == 0xBC || c.toNat == 0xBD
      || c.toNat == 0xBE)
  || (0xC0 ≤ c.toNat && c.toNat ≤ 0xFF && c.toNat != 0xD7 && c.toNat != 0xF7)

/-- `subListIn pat s`: `pat` occurs as a contiguous sublist of `s`
(Python's `pat in s` on strings, on the character lists). -/
def subListIn (pat : List Char) : List Char → Bool
  | [] => pat.isEmpty
  | x :: xs => pat.isPrefixOf (x :: xs) || subListIn pat xs

/-- Python's `sub in s` substring test. -/
def pyIn (sub s : String) : Bool := subListIn sub.toList s.toList

/-- Python's `s.startswith(p)`. -/
def pyStartsWith (s p : String) : Bool := p.toList.isPrefixOf s.toList

/-- Python's `s.endswith(p)`. -/
def pyEndsWith (s p : String) : Bool := p.toList.reverse.isPrefixOf s.toList.reverse

/-- Split a character list at every occurrence of separator `c`
(Python `s.split(c)` for a one-character separator, the only form the
sources use). -/
def splitCharList (c : Char) : List Char → List (List Char)
  | [] => [[]]
  | x :: xs =>
    match splitCharList c xs with
    | y :: ys => if x == c then [] :: y :: ys else (x :: y) :: ys
    | [] => if x == c then [[], []] else [[x]]

/-- Python `s.split(sep)` for a one-character separator. -/
def pySplitChar (c : Char) (s : String) : List String :=
  (splitCharList c s.toList).map (fun l => String.mk l)

/-- Replacement engine for Python `s.replace(pat, rep)` with non-empty `pat`:
left-to-right, non-overlapping.  `fuel` bounds recursion (a fuel of
`s.length + 1` never runs out for non-empty `pat`). -/
def replGo (pat rep : List Char) : Nat → List Char → List Char
  | 0, s => s
  | _ + 1, [] => []
  | f + 1, x :: xs =>
    if pat.isPrefixOf (x :: xs) then rep ++ replGo pat rep f ((x :: xs).drop pat.length)
    else x :: replGo pat rep f xs

/-- Python's `s.replace(pat, rep)`; the sources only call it with non-empty
patterns, and for an empty pattern the input is returned unchanged. -/
def pyReplace (s pat rep : String) : String :=
  match pat.toList with
  | [] => s
  | _ :: _ => String.mk (replGo pat.toList rep.toList (s.toList.length + 1) s.toList)

/-- Python's `s.strip(chars)`: remove leading and trailing characters that are
in `chars`. -/
def pyStripChars (chars : List Char) (s : String) : String :=
  String.mk (((s.toList.dropWhile (chars.contains ·)).reverse.dropWhile
    (chars.contains ·)).reverse)

/-- Python's `s.strip()` (ASCII whitespace; see `isPySpace`). -/
def pyStrip (s : String) : String :=
  String.mk (((s.toList.dropWhile isPySpace).reverse.dropWhile isPySpace).reverse)

/-- Python's `s.lower()`, modelled on ASCII letters (the sources lower-case
tag-derived and attribute-derived ASCII text). -/
def pyLower (s : String) : String := String.mk (s.toList.map Char.toLower)

/-- Python's `s[:n]` prefix slice. -/
def pyTake (n : Nat) (s : String) : String := String.mk (s.toList.take n)

/-- Python's `s.center(width)` with space fill, per CPython `do_center`:
left margin is `marg / 2 + (marg & width & 1)`. -/
def pyCenter (s : String) (width : Nat) : String :=
  let len := s.length
  if width ≤ len then s
  else
    let marg := width - len
    let left := marg / 2 + (marg &&& width &&& 1)
    String.mk (List.replicate left ' ') ++ s ++ String.mk (List.replicate (marg - left) ' ')

/-- `c * n` string repetition. -/
def strRepeat (c : Char) (n : Nat) : String := String.mk (List.replicate n c)

/-- Python's `'\n'.join(lines)`. -/
def joinNL : List String → String
  | [] => ""
  | [x] => x
  | x :: y :: rest => x ++ "\n" ++ joinNL (y :: rest)

/-- Truthiness of an optional Python string (`if expr:`): present and
non-empty. -/
def pyTruthy : Option String → Bool
  | none => false
  | some s => s != ""

/-- Python's `a or b` for strings: `a` if non-empty else `b`. -/
def pyOr (a b : String) : String := if a == "" then b else a

/-- Python's `a or b` where `a` is an optional string and `b` a string
(e.g. `dest.table_name or "Unknown Table"`). -/
def pyOrOpt (a : Option String) (b : String) : String :=
  match a with
  | some s => if s == "" then b else s
  | none => b

/-- Last element of a list with a fallback (Python `parts[-1]`). -/
def lastD (l : List α) (d : α) : α :=
  match l with
  | [] => d
  | [x] => x
  | _ :: y :: rest => lastD (y :: rest) d

/-- Head of a list with a fallback (Python `parts[0]`). -/
def headD (l : List α) (d : α) : α :=
  match l with
  | [] => d
  | x :: _ => x

/-- Replace the element at index `i` (in-place mutation of a Python list
element, modelled functionally). -/
def updAt : Nat → (α → α) → List α → List α
  | _, _, [] => []
  | 0, f, x :: xs => f x :: xs
  | i + 1, f, x :: xs => x :: updAt i f xs

/-- Python `dict` assignment `d[k] = v`: later assignments shadow earlier
ones (lookup finds the most recent binding). -/
def dinsert (k : String) (v : α) (d : List (String × α)) : List (String × α) := (k, v) :: d

/-- Python `dict.get(k)`: value of the most recent assignment to `k`, if any. -/
def dget (d : List (String × α)) (k : String) : Option α :=
  (d.find? (fun p => p.1 == k)).map (·.2)

/-! ### The document tree

`xml.etree.ElementTree` elements: a tag, an ordered attribute map (Python
dicts preserve insertion order, which is document order), optional text and
a list of children. -/

/-- A node of the parsed document tree. -/
inductive XmlElem where
  | node (tag : String) (attrib : List (String × String)) (text : Option String)
      (children : List XmlElem)
deriving Repr

def XmlElem.tag : XmlElem → String
  | .node t _ _ _ => t

def XmlElem.attrib : XmlElem → List (String × String)
  | .node _ a _ _ => a

def XmlElem.text : XmlElem → Option String
  | .node _ _ x _ => x

def XmlElem.children : XmlElem → List XmlElem
  | .node _ _ _ cs => cs

/-- `elem.get(key)`: attribute lookup (element attribute maps have unique
keys, so first match suffices). -/
def XmlElem.get (e : XmlElem) (k : String) : Option String :=
  (e.attrib.find? (fun p => p.1 == k)).map (·.2)

/-- `elem.get(key, default)` with a string default. -/
def XmlElem.getD (e : XmlElem) (k d : String) : String := (e.get k).getD d

mutual
/-- `elem.iter()`: the element and all its descendants in document
(pre-)order. -/
def XmlElem.iterAll : XmlElem → List XmlElem
  | .node t a x cs => .node t a x cs :: XmlElem.iterList cs

/-- `iter()` over a list of sibling subtrees. -/
def XmlElem.iterList : List XmlElem → List XmlElem
  | [] => []
  | c :: cs => c.iterAll ++ XmlElem.iterList cs
end

/-! ### Error model

The two Python exceptions the embedded code can raise: `ValueError` from
`int(...)` on a malformed string, `AttributeError` from attribute access on
`None`. A structurally invalid document (fatal parse error) never reaches
these functions: the embedding takes an already-parsed tree. -/

/-- A Python runtime exception raised by the embedded code. -/
inductive PyErr where
  | valueError (msg : String)
  | attributeError (msg : String)
deriving Repr, DecidableEq

/-! ### Data model (`models.py`)

Each dataclass keeps the fields the parser or the generators read or write;
fields that no embedded code ever touches (e.g. `description` on
`PackageMetadata`, `raise_event_on_change` on `Variable`) are omitted — they
keep their dataclass defaults throughout and are dead weight for every claim. -/

structure PackageMetadata where
  name : String
  dtsid : String
  creation_date : Option String
  creator_name : Option String
  creator_computer : Option String
  version_build : Option String
  version_guid : Option String
  package_format_version : Option String
  last_modified_version : Option String
  locale_id : Option String
deriving Repr, DecidableEq

structure AnnotationInfo where
  ref_id : String
  description : Option String
  tag : Option String
  text : Option String
  creation_date : Option String
deriving Repr, DecidableEq

structure ConnectionManager where
  name : String
  ref_id : String
  dtsid : String
  connection_type : String
  connection_string : Option String
  server : Option String
  database : Option String
  provider : Option String
  properties : List (String × String)
deriving Repr, DecidableEq

/-- `Variable`; the source's `namespace` field is renamed `var_namespace`
(`namespace` is a Lean keyword). -/
structure Variable where
  name : String
  var_namespace : String
  dtsid : String
  data_type : Int
  value : Option String
  expression : Option String
  read_only : Bool
deriving Repr, DecidableEq

structure Parameter where
  name : String
  dtsid : String
  data_type : Int
  value : Option String
  sensitive : Bool
  required : Bool
deriving Repr, DecidableEq

structure Column where
  name : String
  ref_id : String
  data_type : Option String
  length : Option Int
deriving Repr, DecidableEq

structure OutputColumn where
  name : String
  ref_id : String
  data_type : Option String
  length : Option Int
  expression : Option String
deriving Repr, DecidableEq

/-- `ConditionalOutput`; `is_default` holds the truthiness of the Python
value `p.text and p.text.lower() == 'true'` (which downstream code only ever
tests for truthiness). -/
structure ConditionalOutput where
  name : String
  expression : Option String
  friendly_expression : Option String
  evaluation_order : Option Int
  is_default : Bool
deriving Repr, DecidableEq

structure DataFlowComponent where
  name : String
  ref_id : String
  component_type : String
  component_class : String
  description : Option String
  input_columns : List Column
  output_columns : List OutputColumn
  conditional_outputs : List ConditionalOutput
  connection_manager : Option String
  sql_command : Option String
  table_name : Option String
  properties : List (String × Option String)
  has_error_output : Bool
deriving Repr, DecidableEq

structure DataFlowPath where
  name : String
  ref_id : String
  source_ref_id : String
  destination_ref_id : String
deriving Repr, DecidableEq

structure DataFlowTask where
  name : String
  ref_id : String
  dtsid : String
  description : Option String
  components : List DataFlowComponent
  paths : List DataFlowPath
deriving Repr, DecidableEq

/-- One `parameter_bindings` entry of a SQL task detail dict. -/
structure PBinding where
  parameter_name : Option String
  variable_name : Option String
deriving Repr, DecidableEq

/-- One `result_bindings` entry of a SQL task detail dict. -/
structure RBinding where
  result_name : Option String
  variable_name : Option String
deriving Repr, DecidableEq

/-- The task-description dict built by `_parse_task`: the five base keys,
plus the keys merged in by the SQL-task and mail-task sub-parsers.  In
Python the sub-parser keys are absent unless the marker matched; absent keys
are only ever read with `.get`, so `none`-valued fields model them
faithfully. -/
structure TaskInfo where
  name : String
  ref_id : String
  dtsid : String
  type : String
  description : Option String
  sql_statement : Option String := none
  connection : Option String := none
  result_set_type : Option String := none
  parameter_bindings : List PBinding := []
  result_bindings : List RBinding := []
  from_address : Option String := none
  to_address : Option String := none
  subject : Option String := none
  message_source : Option String := none
  smtp_connection : Option String := none
deriving Repr, DecidableEq

structure PrecedenceConstraint where
  name : String
  ref_id : String
  dtsid : String
  from_ref : String
  to_ref : String
  value : Int
  logical_and : Bool
  expression : Option String
  eval_op : Option Int
deriving Repr, DecidableEq

structure ControlFlowStage where
  order : Nat
  name : String
  stage_type : String
  description : Option String
  tasks : List TaskInfo
  precedence_from : List String := []
  precedence_to : List String := []
  condition : Option String := none
deriving Repr, DecidableEq

structure EventHandler where
  name : String
  ref_id : String
  dtsid : String
  event_name : String
  executables : List TaskInfo
  precedence_constraints : List PrecedenceConstraint
deriving Repr, DecidableEq

/-- `ErrorHandlingStrategy`; `error_outputs` is created empty and never
filled by the parser. -/
structure ErrorHandlingStrategy where
  event_handlers : List EventHandler
  error_outputs : List String
  logging_mode : Option String
  logged_events : List (Option String)
deriving Repr, DecidableEq

structure DatabaseObject where
  name : String
  object_type : String
  schema : String
  usage : String
deriving Repr, DecidableEq

structure Threshold where
  name : String
  value : Option String
  data_type : String
  category : String
  description : Option String
deriving Repr, DecidableEq

structure Alert where
  name : String
  alert_type : String
  recipients : Option String
  priority : String
  category : String
deriving Repr, DecidableEq

/-- Per-diagram bundle produced by the diagram generator. -/
structure DataFlowDiagram where
  name : String
  components : List String
  paths : List (String × String × String)
  mermaid_code : String
  ascii_diagram : String
deriving Repr, DecidableEq

/-- `DtsxPackage`; the source's `variables` field is renamed `pkg_variables`
(`variables` is reserved by Mathlib's deprecation machinery). -/
structure DtsxPackage where
  metadata : PackageMetadata
  annotations : List AnnotationInfo
  connection_managers : List ConnectionManager
  pkg_variables : List Variable
  parameters : List Parameter
  control_flow_stages : List ControlFlowStage
  data_flow_tasks : List DataFlowTask
  error_handling : Option ErrorHandlingStrategy
  database_objects : List DatabaseObject
  thresholds : List Threshold
  alerts : List Alert
  raw_precedence_constraints : List PrecedenceConstraint
deriving Repr, DecidableEq

/-- The mutable state of a `DtsxParser` instance that extraction steps read
back: `self.package`, `None` until `parse` assigns it at its end. -/
structure ParserState where
  package : Option DtsxPackage
deriving Repr

/-! ### The parser (`parser.py`) -/

/-- The `DTS` namespace URI (`DtsxParser.NAMESPACES`). -/
def nsDTS : String := "www.microsoft.com/SqlServer/Dts"

/-- The `SQLTask` namespace URI. -/
def nsSQLTask : String := "www.microsoft.com/sqlserver/dts/tasks/sqltask"

/-- The `SendMailTask` namespace URI. -/
def nsSendMailTask : String := "www.microsoft.com/sqlserver/dts/tasks/sendmailtask"

/-- ElementTree's expanded attribute key `{uri}attr`. -/
def nsKey (uri attr : String) : String := "\x7b" ++ uri ++ "\x7d" ++ attr

/-- `_get_attr` without its default: try `{DTS-uri}attr`, then the bare
`attr`, then the literal `DTS:attr` key, first hit wins; `none` when all
three are absent. -/
def getAttrOpt (e : XmlElem) (attr : String) : Option String :=
  match e.get (nsKey nsDTS attr) with
  | some v => some v
  | none =>
    match e.get attr with
    | some v => some v
    | none => e.get ("DTS:" ++ attr)

/-- `_get_attr` with a string default. -/
def getAttrD (e : XmlElem) (attr d : String) : String := (getAttrOpt e attr).getD d

/-- `_find_property_value`: text of the first element whose tag contains
`"Property"` and whose resolved `Name` attribute equals `prop_name`. -/
def findPropertyValue (root : XmlElem) (prop_name : String) : Option String :=
  (root.iterAll.find? (fun p =>
    pyIn "Property" p.tag && getAttrOpt p "Name" == some prop_name)).bind (·.text)

/-- `_parse_metadata`. -/
def parseMetadata (root : XmlElem) : PackageMetadata :=
  { name := getAttrD root "ObjectName" "Unknown"
    dtsid := getAttrD root "DTSID" ""
    creation_date := getAttrOpt root "CreationDate"
    creator_name := getAttrOpt root "CreatorName"
    creator_computer := getAttrOpt root "CreatorComputerName"
    version_build := getAttrOpt root "VersionBuild"
    version_guid := getAttrOpt root "VersionGUID"
    package_format_version := findPropertyValue root "PackageFormatVersion"
    last_modified_version := getAttrOpt root "LastModifiedProductVersion"
    locale_id := getAttrOpt root "LocaleID" }

/-- `_parse_annotations`: one record per `Annotation`-tagged child of every
`Annotations`-tagged element; the text comes from the first
`AnnotationText`-tagged child. -/
def parseAnnotations (root : XmlElem) : List AnnotationInfo :=
  root.iterAll.flatMap (fun elem =>
    if pyIn "Annotations" elem.tag then
      elem.children.filterMap (fun ann =>
        if pyIn "Annotation" ann.tag then
          some { ref_id := getAttrD ann "refId" ""
                 description := getAttrOpt ann "Description"
                 tag := getAttrOpt ann "Tag"
                 text := (ann.children.find? (fun ch => pyIn "AnnotationText" ch.tag)).bind
                   (·.text)
                 creation_date := getAttrOpt ann "CreationDate" }
        else none)
    else [])

/-- Case-insensitive (ASCII) prefix match used by the connection-string
pattern search (`re.IGNORECASE`). -/
def ciPrefix : List Char → List Char → Option (List Char)
  | [], s => some s
  | _ :: _, [] => none
  | p :: ps, c :: cs => if p.toLower == c.toLower then ciPrefix ps cs else none

/-- Try to match `alt=([^;]+)` at the head of `cs` (one regex alternative at
one position): the literal `alt` case-insensitively, then `=`, then a
non-empty greedy run of non-semicolon characters (the capture). -/
def matchKVAt (alt : String) (cs : List Char) : Option String :=
  match ciPrefix alt.toList cs with
  | none => none
  | some rest =>
    match rest with
    | '=' :: rest2 =>
      let run := rest2.takeWhile (fun c => c != ';')
      if run.isEmpty then none else some (String.mk run)
    | _ => none

/-- `re.search` for the fixed patterns of `_parse_connection_string`
(`(?:Data Source|Server)=([^;]+)` etc., `re.IGNORECASE`): leftmost match
wins, alternatives are tried left to right at each position, the capture is
greedy up to the next `;`. -/
def reSearchKV (alts : List String) : List Char → Option String
  | [] => none
  | c :: cs =>
    match alts.firstM (fun alt => matchKVAt alt (c :: cs)) with
    | some v => some v
    | none => reSearchKV alts cs

/-- `_parse_connection_string`: best-effort `(server, database, provider)`
from a connection string. -/
def parseConnectionString (conn_string : Option String) :
    Option String × Option String × Option String :=
  match conn_string with
  | none => (none, none, none)
  | some s =>
    if s == "" then (none, none, none)
    else
      (reSearchKV ["Data Source", "Server"] s.toList,
       reSearchKV ["Initial Catalog", "Database"] s.toList,
       reSearchKV ["Provider"] s.toList)

/-- The per-`ObjectData`-child update of `_parse_connection_managers`'s scan
state `(conn_string, props)`: a `ConnectionManager`-tagged child re-assigns
the connection string and merges its other attributes (keys cleaned of any
`{uri}` prefix) into the property bag; the `SmtpConnectionManager` branch is
dead (its tag contains `ConnectionManager`). -/
def connObjDataStep (st : Option String × List (String × String)) (child : XmlElem) :
    Option String × List (String × String) :=
  if pyIn "ConnectionManager" child.tag then
    let conn_string := getAttrOpt child "ConnectionString"
    let props := child.attrib.foldl (fun props kv =>
      let clean := if pyIn "\x7d" kv.1 then lastD (pySplitChar '\x7d' kv.1) kv.1 else kv.1
      if clean == "ConnectionString" then props else dinsert clean kv.2 props) st.2
    (conn_string, props)
  else if pyIn "SmtpConnectionManager" child.tag then
    (getAttrOpt child "ConnectionString", st.2)
  else st

/-- `_parse_connection_managers` body for one `ConnectionManager` element. -/
def parseConnectionManager (conn : XmlElem) : ConnectionManager :=
  let conn_type := getAttrD conn "CreationName" "Unknown"
  let scan := conn.iterAll.foldl (fun st obj_data =>
    if pyIn "ObjectData" obj_data.tag then obj_data.children.foldl connObjDataStep st
    else st) ((none : Option String), ([] : List (String × String)))
  let sdp := parseConnectionString scan.1
  { name := getAttrD conn "ObjectName" "Unknown"
    ref_id := getAttrD conn "refId" ""
    dtsid := getAttrD conn "DTSID" ""
    connection_type := conn_type
    connection_string := scan.1
    server := sdp.1
    database := sdp.2.1
    provider := sdp.2.2
    properties := scan.2 }

/-- `_parse_connection_managers`. -/
def parseConnectionManagers (root : XmlElem) : List ConnectionManager :=
  root.iterAll.flatMap (fun elem =>
    if pyEndsWith elem.tag "ConnectionManagers" then
      elem.children.filterMap (fun conn =>
        if pyIn "ConnectionManager" conn.tag then some (parseConnectionManager conn)
        else none)
    else [])

/-- `int(...)` on an attribute string, raising `ValueError` exactly where
Python's `int` does. -/
def pyIntE (s : String) : Except PyErr Int :=
  match pyInt s with
  | some n => Except.ok n
  | none => Except.error (.valueError ("invalid literal for int: " ++ s))

/-- `_parse_variables` body for one `Variable` element: the first
`VariableValue`-tagged child supplies `value` and (via `int(...)`, default 8
when the attribute is absent) `data_type`. -/
def parseVariable (var : XmlElem) : Except PyErr Variable := do
  let firstVal := var.children.find? (fun ch => pyIn "VariableValue" ch.tag)
  let (data_type, value) ←
    match firstVal with
    | none => Except.ok ((8 : Int), (none : Option String))
    | some child =>
      match getAttrOpt child "DataType" with
      | none => Except.ok ((8 : Int), child.text)
      | some s => do
        let n ← pyIntE s
        Except.ok (n, child.text)
  Except.ok
    { name := getAttrD var "ObjectName" "Unknown"
      var_namespace := getAttrD var "Namespace" "User"
      dtsid := getAttrD var "DTSID" ""
      data_type := data_type
      value := value
      expression := getAttrOpt var "Expression"
      read_only := getAttrD var "ReadOnly" "False" == "True" }

/-- `_parse_variables`: every `Variable`-tagged child of every element whose
tag ends in `Variables` but not in `PackageVariables`. -/
def parseVariables (root : XmlElem) : Except PyErr (List Variable) :=
  (root.iterAll.flatMap (fun elem =>
    if pyEndsWith elem.tag "Variables" && !pyEndsWith elem.tag "PackageVariables" then
      elem.children.filter (fun var => pyIn "Variable" var.tag)
    else [])).mapM parseVariable

/-- `_parse_parameters` body for one `PackageParameter` element. -/
def parseParameter (param : XmlElem) : Except PyErr Parameter := do
  let value := (param.children.find? (fun ch =>
    pyIn "Property" ch.tag && getAttrOpt ch "Name" == some "ParameterValue")).bind (·.text)
  let data_type ←
    match getAttrOpt param "DataType" with
    | none => Except.ok (8 : Int)
    | some s => pyIntE s
  Except.ok
    { name := getAttrD param "ObjectName" "Unknown"
      dtsid := getAttrD param "DTSID" ""
      data_type := data_type
      value := value
      sensitive := getAttrD param "Sensitive" "0" == "1"
      required := getAttrD param "Required" "0" == "1" }

/-- `_parse_parameters`. -/
def parseParameters (root : XmlElem) : Except PyErr (List Parameter) :=
  (root.iterAll.flatMap (fun elem =>
    if pyIn "PackageParameters" elem.tag then
      elem.children.filter (fun p => pyIn "PackageParameter" p.tag)
    else [])).mapM parseParameter

/-- `obj_data.get(f'{{{ns}}}key', obj_data.get('PREFIX:key'))`: expanded key
first, literal prefixed key as the default. -/
def getNsOrPrefixed (e : XmlElem) (uri prefixed : String) (attr : String) : Option String :=
  match e.get (nsKey uri attr) with
  | some v => some v
  | none => e.get (prefixed ++ ":" ++ attr)

/-- `_parse_sql_task_details` per-`SqlTaskData` update: the statement,
connection and result-set fields are re-assigned (last `SqlTaskData` wins)
and bindings found anywhere below it are appended. -/
def sqlTaskDataStep (st : (Option String × Option String × Option String) ×
    List PBinding × List RBinding) (obj_data : XmlElem) :
    (Option String × Option String × Option String) × List PBinding × List RBinding :=
  let sql_statement := getNsOrPrefixed obj_data nsSQLTask "SQLTask" "SqlStatementSource"
  let connection := getNsOrPrefixed obj_data nsSQLTask "SQLTask" "Connection"
  let result_set_type := getNsOrPrefixed obj_data nsSQLTask "SQLTask" "ResultSetType"
  let bindings := obj_data.iterAll.foldl (fun (b : List PBinding × List RBinding) binding =>
    if pyIn "ParameterBinding" binding.tag then
      (b.1 ++ [{ parameter_name := getNsOrPrefixed binding nsSQLTask "SQLTask" "ParameterName"
                 variable_name := getNsOrPrefixed binding nsSQLTask "SQLTask" "DtsVariableName" }],
       b.2)
    else if pyIn "ResultBinding" binding.tag then
      (b.1,
       b.2 ++ [{ result_name := getNsOrPrefixed binding nsSQLTask "SQLTask" "ResultName"
                 variable_name := getNsOrPrefixed binding nsSQLTask "SQLTask" "DtsVariableName" }])
    else b) (st.2.1, st.2.2)
  ((sql_statement, connection, result_set_type), bindings)

/-- `_parse_sql_task_details`. -/
def parseSqlTaskDetails (elem : XmlElem) :
    (Option String × Option String × Option String) × List PBinding × List RBinding :=
  (elem.iterAll.filter (fun o => pyIn "SqlTaskData" o.tag)).foldl sqlTaskDataStep
    ((none, none, none), [], [])

/-- `_parse_sendmail_task_details` per-`SendMailTaskData` update; `message
source` comes from the last `MessageSource`-tagged direct child seen. -/
def sendMailDataStep
    (st : Option String × Option String × Option String × Option String × Option String)
    (obj_data : XmlElem) :
    Option String × Option String × Option String × Option String × Option String :=
  let from_address := getNsOrPrefixed obj_data nsSendMailTask "SendMailTask" "From"
  let to_address := getNsOrPrefixed obj_data nsSendMailTask "SendMailTask" "To"
  let subject := getNsOrPrefixed obj_data nsSendMailTask "SendMailTask" "Subject"
  let smtp_connection := getNsOrPrefixed obj_data nsSendMailTask "SendMailTask" "SMTPServer"
  let message_source := obj_data.children.foldl (fun ms child =>
    if pyIn "MessageSource" child.tag then child.text else ms) st.2.2.2.1
  (from_address, to_address, subject, message_source, smtp_connection)

/-- `_parse_sendmail_task_details`:
`(from, to, subject, message_source, smtp_connection)`. -/
def parseSendMailTaskDetails (elem : XmlElem) :
    Option String × Option String × Option String × Option String × Option String :=
  (elem.iterAll.filter (fun o => pyIn "SendMailTaskData" o.tag)).foldl sendMailDataStep
    (none, none, none, none, none)

/-- `_parse_task`: the generic task dict, with SQL-task and mail-task fields
merged in when the combined type string carries the marker. -/
def parseTask (elem : XmlElem) : TaskInfo :=
  let exec_type := getAttrD elem "ExecutableType" ""
  let creation_name := getAttrD elem "CreationName" ""
  let base : TaskInfo :=
    { name := getAttrD elem "ObjectName" "Unknown"
      ref_id := getAttrD elem "refId" ""
      dtsid := getAttrD elem "DTSID" ""
      type := pyOr exec_type creation_name
      description := getAttrOpt elem "Description" }
  let t1 :=
    if pyIn "ExecuteSQLTask" (exec_type ++ creation_name) then
      let d := parseSqlTaskDetails elem
      { base with sql_statement := d.1.1, connection := d.1.2.1, result_set_type := d.1.2.2,
                  parameter_bindings := d.2.1, result_bindings := d.2.2 }
    else base
  if pyIn "SendMailTask" (exec_type ++ creation_name) then
    let m := parseSendMailTaskDetails elem
    { t1 with from_address := m.1, to_address := m.2.1, subject := m.2.2.1,
              message_source := m.2.2.2.1, smtp_connection := m.2.2.2.2 }
  else t1

/-- `_parse_executable_as_stage`. -/
def parseExecutableAsStage (elem : XmlElem) (order : Nat) : ControlFlowStage :=
  let exec_type := getAttrD elem "ExecutableType" ""
  let creation_name := getAttrD elem "CreationName" ""
  let stage_type :=
    if pyIn "SEQUENCE" exec_type || pyIn "SEQUENCE" creation_name then "Sequence"
    else if pyIn "Pipeline" exec_type || pyIn "Pipeline" creation_name then "DataFlow"
    else if pyIn "ExecuteSQLTask" exec_type || pyIn "ExecuteSQLTask" creation_name then "SqlTask"
    else if pyIn "SendMailTask" exec_type || pyIn "SendMailTask" creation_name then "SendMailTask"
    else pyOr exec_type (pyOr creation_name "Unknown")
  let tasks := elem.children.flatMap (fun child =>
    if pyIn "Executables" child.tag then
      (child.children.filter (fun t => pyIn "Executable" t.tag)).map parseTask
    else [])
  { order := order
    name := getAttrD elem "ObjectName" ("Stage_" ++ toString order)
    stage_type := stage_type
    description := getAttrOpt elem "Description"
    tasks := tasks }

/-- `_parse_precedence_constraint`; `int(...)` on the `Value` attribute
(default 0 when absent) and on `EvalOp` (skipped when absent or empty,
Python's truthiness test) can raise `ValueError`. -/
def parsePrecedenceConstraint (elem : XmlElem) : Except PyErr PrecedenceConstraint := do
  let value ←
    match getAttrOpt elem "Value" with
    | none => Except.ok (0 : Int)
    | some s => pyIntE s
  let eval_op ←
    if pyTruthy (getAttrOpt elem "EvalOp") then
      match getAttrOpt elem "EvalOp" with
      | none => Except.ok (none : Option Int)
      | some s => do
        let n ← pyIntE s
        Except.ok (some n)
    else Except.ok none
  Except.ok
    { name := getAttrD elem "ObjectName" ""
      ref_id := getAttrD elem "refId" ""
      dtsid := getAttrD elem "DTSID" ""
      from_ref := getAttrD elem "From" ""
      to_ref := getAttrD elem "To" ""
      value := value
      logical_and := getAttrD elem "LogicalAnd" "True" == "True"
      expression := getAttrOpt elem "Expression"
      eval_op := eval_op }

/-! #### The graph linker (`_link_stages_with_precedence`)

The Python function mutates the stage objects in place; the embedding passes
the stage list explicitly and identifies stages by their list index.  The
`stage_by_ref` dict maps reference strings to stage objects; since the outer
loop runs over the stages in order and dict assignment overwrites, a key
resolves to the **last** stage whose name occurs in the reference string. -/

/-- The `stage_by_ref` dict builder, stage objects represented by index. -/
def linkDictAux (cs : List PrecedenceConstraint) :
    Nat → List ControlFlowStage → List (String × Nat) → List (String × Nat)
  | _, [], d => d
  | i, st :: rest, d =>
    linkDictAux cs (i + 1) rest (cs.foldl (fun d c =>
      let d1 := if pyIn st.name c.from_ref then dinsert c.from_ref i d else d
      if pyIn st.name c.to_ref then dinsert c.to_ref i d1 else d1) d)

/-- The `stage_by_ref` dict of `_link_stages_with_precedence`. -/
def linkDict (stages : List ControlFlowStage) (cs : List PrecedenceConstraint) :
    List (String × Nat) :=
  linkDictAux cs 0 stages []

/-- The linker's first `if` block for one constraint: when the source
resolves and the target reference is not yet among the source's successors,
append the successor entry and, if the constraint's expression is truthy,
assign it as the target stage's condition — raising `AttributeError`
(`to_stage.condition = ... if to_stage else None` with `to_stage = None`)
when the target does not resolve.  The `none` arm of the inner `List.get?`
match is unreachable: `linkDict` only stores indices below the stage-list
length. -/
def linkStepFrom (d : List (String × Nat)) (arr : List ControlFlowStage)
    (c : PrecedenceConstraint) : Except PyErr (List ControlFlowStage) :=
  match dget d c.from_ref with
  | none => Except.ok arr
  | some i =>
    match arr.get? i with
    | none => Except.ok arr
    | some st =>
      if st.precedence_to.contains c.to_ref then Except.ok arr
      else
        let arr1 := updAt i (fun s => { s with precedence_to := s.precedence_to ++ [c.to_ref] }) arr
        if pyTruthy c.expression then
          match dget d c.to_ref with
          | some j => Except.ok (updAt j (fun s => { s with condition := c.expression }) arr1)
          | none =>
            Except.error (.attributeError "NoneType object has no attribute condition")
        else Except.ok arr1

/-- The linker's second `if` block for one constraint: when the target
resolves and the source reference is not yet among the target's
predecessors, append the predecessor entry.  Never raises. -/
def linkStepTo (d : List (String × Nat)) (arr : List ControlFlowStage)
    (c : PrecedenceConstraint) : List ControlFlowStage :=
  match dget d c.to_ref with
  | none => arr
  | some j =>
    match arr.get? j with
    | none => arr
    | some st =>
      if st.precedence_from.contains c.from_ref then arr
      else updAt j (fun s => { s with precedence_from := s.precedence_from ++ [c.from_ref] }) arr

/-- One iteration of the linker's constraint loop: both `if` blocks in
order. -/
def linkStep (d : List (String × Nat)) (arr : List ControlFlowStage)
    (c : PrecedenceConstraint) : Except PyErr (List ControlFlowStage) :=
  match linkStepFrom d arr c with
  | Except.error e => Except.error e
  | Except.ok arr2 => Except.ok (linkStepTo d arr2 c)

/-- The linker's constraint loop. -/
def linkLoop (d : List (String × Nat)) :
    List PrecedenceConstraint → List ControlFlowStage → Except PyErr (List ControlFlowStage)
  | [], arr => Except.ok arr
  | c :: rest, arr =>
    match linkStep d arr c with
    | Except.ok arr2 => linkLoop d rest arr2
    | Except.error e => Except.error e

/-- `_link_stages_with_precedence`, returning the mutated stage list. -/
def linkStages (stages : List ControlFlowStage) (cs : List PrecedenceConstraint) :
    Except PyErr (List ControlFlowStage) :=
  linkLoop (linkDict stages cs) cs stages

/-- The stage-collection loop of `_parse_control_flow`: direct children of
the root whose tag contains `Executables`, then their direct children whose
tag contains `Executable`, numbered 1, 2, 3, … across containers. -/
def collectStages : List XmlElem → Nat × List ControlFlowStage →
    Nat × List ControlFlowStage
  | [], acc => acc
  | ex :: rest, acc =>
    if pyIn "Executable" ex.tag then
      collectStages rest (acc.1 + 1, acc.2 ++ [parseExecutableAsStage ex (acc.1 + 1)])
    else collectStages rest acc

/-- Both stage-collection loops of `_parse_control_flow` over the root's
direct children. -/
def collectAllStages (root : XmlElem) : Nat × List ControlFlowStage :=
  root.children.foldl (fun acc elem =>
    if pyIn "Executables" elem.tag then collectStages elem.children acc else acc) (0, [])

/-- `_parse_control_flow`: collect the stages and the top-level precedence
constraints, link them, and return both. -/
def parseControlFlow (root : XmlElem) :
    Except PyErr (List ControlFlowStage × List PrecedenceConstraint) := do
  let stages := (collectAllStages root).2
  let all_constraints ← (root.children.flatMap (fun elem =>
    if pyIn "PrecedenceConstraints" elem.tag then
      elem.children.filter (fun c => pyIn "PrecedenceConstraint" c.tag)
    else [])).mapM parsePrecedenceConstraint
  let stages2 ← linkStages stages all_constraints
  Except.ok (stages2, all_constraints)

/-- The per-`properties`-container scan of `_parse_data_flow_component` for
one output: `(expression, friendly_expression, evaluation_order, is_default)`
from the container's `property` children; `int(p.text)` on a present,
non-empty `EvaluationOrder` can raise. -/
def condOutputScan (out_props : XmlElem) :
    Except PyErr (Option String × Option String × Option Int × Bool) :=
  out_props.children.foldlM (fun st p =>
    if p.tag == "property" then
      let pname := p.getD "name" ""
      if pname == "Expression" then Except.ok (p.text, st.2.1, st.2.2.1, st.2.2.2)
      else if pname == "FriendlyExpression" then Except.ok (st.1, p.text, st.2.2.1, st.2.2.2)
      else if pname == "EvaluationOrder" then
        if pyTruthy p.text then do
          let n ← pyIntE (p.text.getD "")
          Except.ok (st.1, st.2.1, some n, st.2.2.2)
        else Except.ok (st.1, st.2.1, none, st.2.2.2)
      else if pname == "IsDefaultOut" then
        Except.ok (st.1, st.2.1, st.2.2.1,
          match p.text with
          | some t => pyLower t == "true"
          | none => false)
      else Except.ok st
    else Except.ok st) ((none : Option String), (none : Option String), (none : Option Int), false)

/-- `int(col.get(key, 0)) if col.get(key) else None`: parse a length-like
attribute when present and non-empty, else `none`. -/
def lengthAttr (col : XmlElem) (key : String) : Except PyErr (Option Int) :=
  match col.get key with
  | none => Except.ok none
  | some s =>
    if s == "" then Except.ok none
    else do
      let n ← pyIntE s
      Except.ok (some n)

/-- The per-output scan of `_parse_data_flow_component`: accumulates
`(output_columns, conditional_outputs, has_error_output)`. -/
def outputScan (st : List OutputColumn × List ConditionalOutput × Bool) (output : XmlElem) :
    Except PyErr (List OutputColumn × List ConditionalOutput × Bool) := do
  if output.tag == "output" then
    let is_error := pyLower (output.getD "isErrorOut" "false") == "true"
    let has_error := st.2.2 || is_error
    let output_name := output.getD "name" ""
    let conds ← output.children.foldlM (fun conds out_props => do
      if out_props.tag == "properties" then
        let scan ← condOutputScan out_props
        if pyTruthy scan.1 || scan.2.2.2 then
          Except.ok (conds ++ [({ name := output_name
                                  expression := scan.1
                                  friendly_expression := scan.2.1
                                  evaluation_order := scan.2.2.1
                                  is_default := scan.2.2.2 } : ConditionalOutput)])
        else Except.ok conds
      else Except.ok conds) st.2.1
    let cols ← output.children.foldlM (fun cols out_cols => do
      if out_cols.tag == "outputColumns" then
        let newCols ← (out_cols.children.filter (fun c => c.tag == "outputColumn")).mapM
          (fun col => do
            let len ← lengthAttr col "length"
            Except.ok ({ name := col.getD "name" ""
                         ref_id := col.getD "refId" ""
                         data_type := col.get "dataType"
                         length := len
                         expression := col.get "expression" } : OutputColumn))
        Except.ok (cols ++ newCols)
      else Except.ok cols) st.1
    Except.ok (cols, conds, has_error)
  else Except.ok st

/-- `_parse_data_flow_component`. -/
def parseDataFlowComponent (elem : XmlElem) : Except PyErr DataFlowComponent := do
  let comp_class := elem.getD "componentClassID" ""
  let comp_type :=
    if pyIn "Source" comp_class then "Source"
    else if pyIn "Destination" comp_class then "Destination"
    else "Transform"
  let propScan := elem.children.foldl (fun st prop_container =>
    if prop_container.tag == "properties" then
      prop_container.children.foldl (fun (st : List (String × Option String) ×
          Option String × Option String) prop =>
        if prop.tag == "property" then
          let name := prop.getD "name" ""
          let value := prop.text
          let props := dinsert name value st.1
          if name == "SqlCommand" then (props, value, st.2.2)
          else if name == "OpenRowset" then (props, st.2.1, value)
          else (props, st.2.1, st.2.2)
        else st) st
    else st) (([] : List (String × Option String)), (none : Option String), (none : Option String))
  let outs ← (elem.children.filter (fun o => o.tag == "outputs")).foldlM
    (fun st outputs_container => outputs_container.children.foldlM outputScan st)
    (([] : List OutputColumn), ([] : List ConditionalOutput), false)
  let input_columns ← (elem.children.filter (fun i => i.tag == "inputs")).foldlM
    (fun cols inputs_container =>
      (inputs_container.children.filter (fun i => i.tag == "input")).foldlM
        (fun cols inp =>
          (inp.children.filter (fun ic => ic.tag == "inputColumns")).foldlM
            (fun cols inp_cols => do
              let newCols ← (inp_cols.children.filter (fun c => c.tag == "inputColumn")).mapM
                (fun col => do
                  let len ← lengthAttr col "cachedLength"
                  Except.ok ({ name := col.getD "cachedName" ""
                               ref_id := col.getD "refId" ""
                               data_type := col.get "cachedDataType"
                               length := len } : Column))
              Except.ok (cols ++ newCols)) cols) cols) ([] : List Column)
  let conn_manager := elem.children.foldl (fun cm conns =>
    if conns.tag == "connections" then
      match conns.children.find? (fun c => c.tag == "connection") with
      | some conn => some (conn.getD "connectionManagerRefId" "")
      | none => cm
    else cm) (none : Option String)
  Except.ok
    { name := elem.getD "name" "Unknown"
      ref_id := elem.getD "refId" ""
      component_type := comp_type
      component_class := comp_class
      description := elem.get "description"
      input_columns := input_columns
      output_columns := outs.1
      conditional_outputs := outs.2.1
      connection_manager := conn_manager
      sql_command := propScan.2.1
      table_name := propScan.2.2
      properties := propScan.1
      has_error_output := outs.2.2 }

/-- `_parse_data_flow_path`. -/
def parseDataFlowPath (elem : XmlElem) : DataFlowPath :=
  { name := elem.getD "name" ""
    ref_id := elem.getD "refId" ""
    source_ref_id := elem.getD "startId" ""
    destination_ref_id := elem.getD "endId" "" }

/-- `_parse_data_flow_task`.  Both the `ObjectData` wrapper and the
`pipeline` element itself match the outer scan, so a pipeline nested in an
`ObjectData` has its components collected twice — embedded as the source
behaves. -/
def parseDataFlowTask (elem : XmlElem) : Except PyErr DataFlowTask := do
  let pipelines := elem.iterAll.flatMap (fun obj_data =>
    if obj_data.tag == "pipeline" || pyIn "ObjectData" obj_data.tag then
      obj_data.iterAll.filter (fun p => p.tag == "pipeline")
    else [])
  let cp ← pipelines.foldlM (fun (cp : List DataFlowComponent × List DataFlowPath) pipeline =>
    pipeline.children.foldlM (fun (cp : List DataFlowComponent × List DataFlowPath)
        comp_container => do
      if comp_container.tag == "components" then
        let newComps ← (comp_container.children.filter (fun c => c.tag == "component")).mapM
          parseDataFlowComponent
        Except.ok (cp.1 ++ newComps, cp.2)
      else if comp_container.tag == "paths" then
        Except.ok (cp.1,
          cp.2 ++ (comp_container.children.filter (fun p => p.tag == "path")).map
            parseDataFlowPath)
      else Except.ok cp) cp) (([] : List DataFlowComponent), ([] : List DataFlowPath))
  Except.ok
    { name := getAttrD elem "ObjectName" "Unknown"
      ref_id := getAttrD elem "refId" ""
      dtsid := getAttrD elem "DTSID" ""
      description := getAttrOpt elem "Description"
      components := cp.1
      paths := cp.2 }

/-- `_parse_data_flow_tasks`: every `Executable`-tagged element anywhere in
the tree whose type strings mention `Pipeline`. -/
def parseDataFlowTasks (root : XmlElem) : Except PyErr (List DataFlowTask) :=
  (root.iterAll.filter (fun elem =>
    pyIn "Executable" elem.tag &&
    (pyIn "Pipeline" (getAttrD elem "ExecutableType" "") ||
     pyIn "Pipeline" (getAttrD elem "CreationName" "")))).mapM parseDataFlowTask

/-- `_parse_event_handler`. -/
def parseEventHandler (elem : XmlElem) : Except PyErr EventHandler := do
  let acc ← elem.children.foldlM (fun (acc : List TaskInfo × List PrecedenceConstraint) child =>
    if pyIn "Executables" child.tag then
      Except.ok (acc.1 ++ (child.children.filter (fun e => pyIn "Executable" e.tag)).map
        parseTask, acc.2)
    else if pyIn "PrecedenceConstraints" child.tag then do
      let pcs ← (child.children.filter (fun p => pyIn "PrecedenceConstraint" p.tag)).mapM
        parsePrecedenceConstraint
      Except.ok (acc.1, acc.2 ++ pcs)
    else Except.ok acc) (([] : List TaskInfo), ([] : List PrecedenceConstraint))
  Except.ok
    { name := getAttrD elem "ObjectName" ""
      ref_id := getAttrD elem "refId" ""
      dtsid := getAttrD elem "DTSID" ""
      event_name := getAttrD elem "EventName" ""
      executables := acc.1
      precedence_constraints := acc.2 }

/-- `_parse_error_handling`. -/
def parseErrorHandling (root : XmlElem) : Except PyErr ErrorHandlingStrategy := do
  let event_handlers ← (root.iterAll.flatMap (fun elem =>
    if pyIn "EventHandlers" elem.tag then
      elem.children.filter (fun h => pyIn "EventHandler" h.tag)
    else [])).mapM parseEventHandler
  let logScan := root.iterAll.foldl (fun (st : Option String × List (Option String)) elem =>
    if pyIn "LoggingOptions" elem.tag then
      elem.children.foldl (fun (st : Option String × List (Option String)) child =>
        if pyIn "LoggingMode" child.tag then (child.text, st.2)
        else if pyIn "EventFilter" child.tag then
          (st.1, st.2 ++ (child.children.filter (fun e => pyIn "EventToLog" e.tag)).map (·.text))
        else st) st
    else st) ((none : Option String), ([] : List (Option String)))
  Except.ok
    { event_handlers := event_handlers
      error_outputs := []
      logging_mode := logScan.1
      logged_events := logScan.2 }

/-! #### Database-object mining (`_extract_database_objects`)

The spec treats the regex-based SQL-object-name miner as an external
collaborator (§6) and does not specify `re.findall` further; the embedding
therefore takes the regex engine as an explicit function argument
`findall pattern text`, applied to the exact pattern strings of the source.
Everything around it — the guards on the in-progress package, the
deduplication keyed on `"{schema}.{name}"`, the per-pattern loops — is
embedded from the source. -/

def tablePatterns : List String :=
  ["FROM\\s+(\\[?[\\w\\.]+\\]?\\.\\[?[\\w]+\\]?)",
   "INTO\\s+(\\[?[\\w\\.]+\\]?\\.\\[?[\\w]+\\]?)",
   "UPDATE\\s+(\\[?[\\w\\.]+\\]?\\.\\[?[\\w]+\\]?)",
   "JOIN\\s+(\\[?[\\w\\.]+\\]?\\.\\[?[\\w]+\\]?)",
   "INSERT\\s+INTO\\s+(\\[?[\\w\\.]+\\]?\\.\\[?[\\w]+\\]?)"]

def procPatterns : List String :=
  ["EXEC(?:UTE)?\\s+(\\[?[\\w\\.]+\\]?\\.\\[?[\\w]+\\]?)"]

def funcPatterns : List String :=
  ["(\\[?[\\w\\.]+\\]?\\.\\[?fn_\\w+\\]?)\\s*\\("]

/-- `name.strip('[]')` and the schema split shared by all three object
kinds: `(schema, object)` with default schema `dbo`. -/
def schemaSplit (rawName : String) : String × String :=
  let name := pyStripChars ['[', ']'] rawName
  if pyIn "." name then
    let parts := pySplitChar '.' name
    (pyStripChars ['[', ']'] (headD parts ""),
     pyStripChars ['[', ']'] (headD (parts.drop 1) ""))
  else ("dbo", name)

/-- Deduplicated append of one mined object: skip when `key` was seen. -/
def addObject (key : String) (obj : DatabaseObject) (st : List String × List DatabaseObject) :
    List String × List DatabaseObject :=
  if st.1.contains key then st else (st.1 ++ [key], st.2 ++ [obj])

/-- The per-SQL-statement mining of `_extract_database_objects`: tables,
then stored procedures, then functions, each pattern in order, each
`findall` hit in order. -/
def mineStatement (findall : String → String → List String) (sql : String) (usage : String)
    (st : List String × List DatabaseObject) : List String × List DatabaseObject :=
  let st := tablePatterns.foldl (fun st pattern =>
    (findall pattern sql).foldl (fun st m =>
      let sn := schemaSplit m
      addObject (sn.1 ++ "." ++ sn.2)
        { name := sn.2, object_type := "Table", schema := sn.1, usage := usage } st) st) st
  let st := procPatterns.foldl (fun st pattern =>
    (findall pattern sql).foldl (fun st m =>
      let sn := schemaSplit m
      addObject ("proc:" ++ sn.1 ++ "." ++ sn.2)
        { name := sn.2, object_type := "StoredProcedure", schema := sn.1, usage := "Execute" }
        st) st) st
  funcPatterns.foldl (fun st pattern =>
    (findall pattern sql).foldl (fun st m =>
      let sn := schemaSplit m
      addObject ("func:" ++ sn.1 ++ "." ++ sn.2)
        { name := sn.2, object_type := "Function", schema := sn.1, usage := "Reference" } st)
      st) st

/-- `_extract_database_objects`: reads the in-progress `self.package`; with
no package assigned yet both collection loops iterate nothing. -/
def extractDatabaseObjects (findall : String → String → List String)
    (package : Option DtsxPackage) : List DatabaseObject :=
  let sql1 : List (String × String) :=
    match package with
    | none => []
    | some pkg => pkg.control_flow_stages.flatMap (fun stage =>
        stage.tasks.filterMap (fun task =>
          match task.sql_statement with
          | some sql => if sql == "" then none else some (sql, "Task")
          | none => none))
  let dfScan : List (String × String) × List String × List DatabaseObject :=
    match package with
    | none => ([], [], [])
    | some pkg => pkg.data_flow_tasks.foldl (fun acc dft =>
        dft.components.foldl (fun (acc : List (String × String) × List String ×
            List DatabaseObject) comp =>
          let acc :=
            match comp.sql_command with
            | some sql =>
              if sql == "" then acc else (acc.1 ++ [(sql, comp.component_type)], acc.2)
            | none => acc
          match comp.table_name with
          | some tn =>
            if tn == "" then acc
            else
              let sn := schemaSplit tn
              let st2 := addObject (sn.1 ++ "." ++ sn.2)
                { name := sn.2, object_type := "Table", schema := sn.1,
                  usage := comp.component_type } (acc.2.1, acc.2.2)
              (acc.1, st2)
          | none => acc) acc) (([] : List (String × String)), ([] : List String),
            ([] : List DatabaseObject))
  let sql_statements := sql1 ++ dfScan.1
  (sql_statements.foldl (fun st s => mineStatement findall s.1 s.2 st)
    (dfScan.2.1, dfScan.2.2)).2

/-- The ordered `threshold_patterns` of `_extract_thresholds` (Python dict
literal iteration order). -/
def thresholdPatterns : List (String × String) :=
  [("Threshold", "General"), ("Limit", "General"), ("Max", "Performance"),
   ("Min", "Performance"), ("Score", "Fraud"), ("Window", "Time"),
   ("Batch", "Performance"), ("Fraud", "Fraud"), ("Compliance", "Compliance")]

/-- `_extract_thresholds`: first matching pattern (case-insensitive
substring of the variable name) wins. -/
def extractThresholds (vars : List Variable) : List Threshold :=
  vars.filterMap (fun var =>
    (thresholdPatterns.find? (fun p => pyIn (pyLower p.1) (pyLower var.name))).map
      (fun p =>
        { name := var.name
          value := var.value
          data_type := toString var.data_type
          category := p.2
          description := some ("Variable from namespace " ++ var.var_namespace) }))

/-- `_extract_alerts`: reads the in-progress `self.package`; with no package
assigned yet both scans iterate nothing. -/
def extractAlerts (package : Option DtsxPackage) : List Alert :=
  let fromHandlers : List Alert :=
    match package with
    | none => []
    | some pkg =>
      match pkg.error_handling with
      | none => []
      | some eh => eh.event_handlers.flatMap (fun handler =>
          handler.executables.filterMap (fun task =>
            if pyIn "SendMailTask" task.type then
              some { name := task.name
                     alert_type := handler.event_name
                     recipients := task.to_address
                     priority := if pyIn "Error" handler.event_name then "High" else "Normal"
                     category := if pyIn "Error" handler.event_name then "Error" else "Warning" }
            else none))
  let fromStages : List Alert :=
    match package with
    | none => []
    | some pkg => pkg.control_flow_stages.flatMap (fun stage =>
        stage.tasks.filterMap (fun task =>
          if pyIn "SendMailTask" task.type then
            some { name := task.name, alert_type := "Completion", recipients := task.to_address,
                   priority := "Normal", category := "Notification" }
          else none))
  fromHandlers ++ fromStages

/-- `DtsxParser.parse` over an already-parsed tree: runs every extraction
pass in source order against the parser state (whose `package` field is
still its pre-parse value throughout), then constructs the aggregate and
assigns it to the state. -/
def parseDtsx (findall : String → String → List String) (root : XmlElem)
    (st : ParserState) : Except PyErr (DtsxPackage × ParserState) := do
  let metadata := parseMetadata root
  let annotations := parseAnnotations root
  let connection_managers := parseConnectionManagers root
  let vars ← parseVariables root
  let parameters ← parseParameters root
  let cf ← parseControlFlow root
  let data_flow_tasks ← parseDataFlowTasks root
  let error_handling ← parseErrorHandling root
  let database_objects := extractDatabaseObjects findall st.package
  let thresholds := extractThresholds vars
  let alerts := extractAlerts st.package
  let pkg : DtsxPackage :=
    { metadata := metadata
      annotations := annotations
      connection_managers := connection_managers
      pkg_variables := vars
      parameters := parameters
      control_flow_stages := cf.1
      data_flow_tasks := data_flow_tasks
      error_handling := some error_handling
      database_objects := database_objects
      thresholds := thresholds
      alerts := alerts
      raw_precedence_constraints := cf.2 }
  Except.ok (pkg, { package := some pkg })

/-- The parser state right after `DtsxParser.__init__`: no package yet. -/
def initState : ParserState := { package := none }

/-! ### The diagram generator (`diagram_generator.py`)

`DiagramGenerator` holds the parsed package and only ever reads it; each
method is embedded as a pure function of the package (there is no assignment
to `self.package` or to any model field anywhere in the class). -/

/-- `_sanitize_id`: replace space, hyphen and dot with underscore, then keep
only characters satisfying Python's `isalnum` plus the underscore. -/
def sanitizeId (name : String) : String :=
  let result := pyReplace (pyReplace (pyReplace name " " "_") "-" "_") "." "_"
  String.mk (result.toList.filter (fun c => pyIsAlnum c || c == '_'))

/-- `_extract_stage_name`: last backslash-separated segment. -/
def extractStageName (ref_id : String) : String :=
  lastD (pySplitChar '\\' ref_id) ref_id

/-- `_extract_component_name`: first component whose `ref_id` or name occurs
in the reference string; else, when the reference has a path separator,
match its last segment (up to the first dot) against component names and
reference ids; else `none`. -/
def extractComponentName (ref_id : String) (components : List DataFlowComponent) :
    Option String :=
  match components.find? (fun comp => pyIn comp.ref_id ref_id || pyIn comp.name ref_id) with
  | some comp => some comp.name
  | none =>
    let parts := pySplitChar '\\' ref_id
    if parts.length > 1 then
      let lastPart := lastD parts ""
      let comp_part :=
        if pyIn "." lastPart then headD (pySplitChar '.' lastPart) "" else lastPart
      (components.find? (fun comp =>
        comp_part == comp.name || pyIn comp_part comp.ref_id)).map (·.name)
    else none

/-- `_get_component_types` (a dict comprehension: later components shadow
earlier ones of the same name). -/
def getComponentTypes (dft : DataFlowTask) : List (String × String) :=
  dft.components.foldl (fun d comp => dinsert comp.name comp.component_type d) []

/-- One node line of the Mermaid flowchart, shaped by component type. -/
def mermaidNodeLine (component_types : List (String × String)) (comp : String) : String :=
  let comp_id := sanitizeId comp
  let comp_type := (dget component_types comp).getD "default"
  if comp_type == "Source" then
    "        " ++ comp_id ++ "[(\"" ++ comp ++ "\")]"
  else if comp_type == "Destination" then
    "        " ++ comp_id ++ "[[\"" ++ comp ++ "\"]]"
  else if pyIn "Transform" comp_type then
    "        " ++ comp_id ++ "\x7b\"" ++ comp ++ "\"\x7d"
  else
    "        " ++ comp_id ++ "[\"" ++ comp ++ "\"]"

/-- One edge line of the Mermaid flowchart. -/
def mermaidEdgeLine (p : String × String × String) : String :=
  let source_id := sanitizeId p.1
  let dest_id := sanitizeId p.2.1
  if p.2.2 == "" then "    " ++ source_id ++ " --> " ++ dest_id
  else "    " ++ source_id ++ " -->|" ++ p.2.2 ++ "| " ++ dest_id

/-- One style-application line of the Mermaid flowchart (empty for the
default type). -/
def mermaidClassLine (component_types : List (String × String)) (comp : String) :
    List String :=
  let comp_id := sanitizeId comp
  let comp_type := (dget component_types comp).getD "default"
  if comp_type == "Source" then ["    class " ++ comp_id ++ " source"]
  else if comp_type == "Destination" then ["    class " ++ comp_id ++ " destination"]
  else if pyIn "Transform" comp_type then ["    class " ++ comp_id ++ " transform"]
  else []

/-- `_generate_mermaid_flowchart`. -/
def generateMermaidFlowchart (title : String) (components : List String)
    (paths : List (String × String × String)) (direction : String)
    (component_types : Option (List (String × String))) : String :=
  let ct := component_types.getD []
  let lines := ["---", "title: " ++ title, "---", "flowchart " ++ direction,
      "    subgraph " ++ sanitizeId title ++ "[\"" ++ title ++ "\"]"]
    ++ components.map (mermaidNodeLine ct)
    ++ ["    end", ""]
    ++ paths.map mermaidEdgeLine
    ++ ["", "    %% Styling",
        "    classDef source fill:#e1f5fe,stroke:#01579b",
        "    classDef destination fill:#e8f5e9,stroke:#1b5e20",
        "    classDef transform fill:#fff3e0,stroke:#e65100"]
    ++ components.flatMap (mermaidClassLine ct)
  joinNL lines

/-- The condition-label cleanup `expr.replace('@[User::','').replace(']','')
.replace('==','=')` applied to a truthy constraint expression, else `""`. -/
def constraintLabel (expression : Option String) : String :=
  if pyTruthy expression then
    pyReplace (pyReplace (pyReplace (expression.getD "") "@[User::" "") "]" "") "==" "="
  else ""

/-- The ASCII control-flow box block of one stage plus the arrow (with the
next stage's inherited condition) towards its successor, if any. -/
def asciiStageBlock (box_width : Nat) (next : Option ControlFlowStage)
    (stage : ControlFlowStage) : List String :=
  let box :=
    ["    +" ++ strRepeat '-' box_width ++ "+",
     "    |" ++ pyCenter stage.name box_width ++ "|",
     "    |" ++ pyCenter ("(" ++ stage.stage_type ++ ")") box_width ++ "|",
     "    +" ++ strRepeat '-' box_width ++ "+"]
  match next with
  | none => box
  | some next_stage =>
    let condLines :=
      if pyTruthy next_stage.condition then
        ["    " ++ "    " ++ "[" ++
          pyReplace (pyReplace (pyReplace (next_stage.condition.getD "") "@[User::" "")
            "]" "") "==" "=" ++ "]"]
      else []
    box ++ ["    " ++ strRepeat ' ' (box_width / 2 + 1) ++ "|"]
      ++ condLines
      ++ ["    " ++ strRepeat ' ' (box_width / 2 + 1) ++ "V", ""]

/-- Pair every stage with its successor in stage order. -/
def withNext : List ControlFlowStage → List (ControlFlowStage × Option ControlFlowStage)
  | [] => []
  | [x] => [(x, none)]
  | x :: y :: rest => (x, some y) :: withNext (y :: rest)

/-- `_generate_ascii_control_flow`. -/
def generateAsciiControlFlow (pkg : DtsxPackage) : String :=
  let header := [strRepeat '=' 60, " CONTROL FLOW DIAGRAM", strRepeat '=' 60, ""]
  let max_width :=
    if pkg.control_flow_stages.isEmpty then 20
    else (pkg.control_flow_stages.map (fun s => s.name.length)).foldl max 0
  let box_width := max_width + 4
  joinNL (header ++ (withNext pkg.control_flow_stages).flatMap
    (fun p => asciiStageBlock box_width p.2 p.1))

/-- `generate_control_flow_diagram`. -/
def generateControlFlowDiagram (pkg : DtsxPackage) : DataFlowDiagram :=
  let components := pkg.control_flow_stages.map (·.name)
  let paths := pkg.raw_precedence_constraints.map (fun c =>
    (extractStageName c.from_ref, extractStageName c.to_ref, constraintLabel c.expression))
  { name := "Control Flow"
    components := components
    paths := paths
    mermaid_code := generateMermaidFlowchart "Control Flow" components paths "TB" none
    ascii_diagram := generateAsciiControlFlow pkg }

/-- The transform symbol lookup of `_generate_ascii_data_flow`. -/
def transformSymbol (component_class : String) : String :=
  if pyIn "DerivedColumn" component_class then "\x7bDER\x7d"
  else if pyIn "ConditionalSplit" component_class then "\x7bSPLIT\x7d"
  else if pyIn "Lookup" component_class then "\x7bLKP\x7d"
  else if pyIn "Multicast" component_class then "\x7bMCT\x7d"
  else if pyIn "RowCount" component_class then "\x7bRC\x7d"
  else if pyIn "DataConvert" component_class then "\x7bDCV\x7d"
  else "\x7bTRF\x7d"

/-- The per-transform lines of `_generate_ascii_data_flow` (symbol line, up
to three derived-column expressions, all conditional-output routes). -/
def asciiTransformLines (transform : DataFlowComponent) : List String :=
  ["    " ++ transformSymbol transform.component_class ++ " " ++ transform.name]
  ++ (transform.output_columns.take 3).filterMap (fun col =>
      match col.expression with
      | some e =>
        if e == "" then none
        else some ("          -> " ++ col.name ++ ": " ++ pyTake 40 e ++ "...")
      | none => none)
  ++ transform.conditional_outputs.filterMap (fun cond =>
      if pyTruthy cond.expression then
        some ("          |-> [" ++ cond.name ++ "]: " ++ cond.expression.getD "")
      else if cond.is_default then
        some ("          |-> [" ++ cond.name ++ "]: (Default)")
      else none)

/-- Interleave the transform blocks with the between-transform arrows. -/
def asciiTransformsSection : List DataFlowComponent → List String
  | [] => []
  | [t] => asciiTransformLines t
  | t :: u :: rest =>
    asciiTransformLines t ++ ["        |", "        V"] ++ asciiTransformsSection (u :: rest)

/-- `_generate_ascii_data_flow`. -/
def generateAsciiDataFlow (dft : DataFlowTask) : String :=
  let sources := dft.components.filter (fun c => c.component_type == "Source")
  let transforms := dft.components.filter (fun c => c.component_type == "Transform")
  let destinations := dft.components.filter (fun c => c.component_type == "Destination")
  let header := [strRepeat '=' 70, " DATA FLOW: " ++ dft.name, strRepeat '=' 70, ""]
  let srcLines :=
    if sources.isEmpty then []
    else
      ["SOURCES:"]
      ++ sources.flatMap (fun source =>
          ["    [(" ++ source.name ++ ")]"]
          ++ (match source.sql_command with
              | some sql =>
                if sql == "" then []
                else ["        SQL: " ++ pyReplace (pyTake 50 (pyStrip sql)) "\n" " " ++ "..."]
              | none => []))
      ++ ["        |", "        V", ""]
  let trLines :=
    if transforms.isEmpty then []
    else
      ["TRANSFORMATIONS:"] ++ asciiTransformsSection transforms
      ++ ["        |", "        V", ""]
  let destLines :=
    if destinations.isEmpty then []
    else
      ["DESTINATIONS:"]
      ++ destinations.flatMap (fun dest =>
          ["    [[" ++ dest.name ++ "]]",
           "        -> " ++ pyOrOpt dest.table_name "Unknown Table"])
      ++ [""]
  let pathLines :=
    [strRepeat '-' 70, "DATA PATHS:"]
    ++ dft.paths.map (fun path =>
        ((extractComponentName path.source_ref_id dft.components).getD "?") ++ " --> " ++
        ((extractComponentName path.destination_ref_id dft.components).getD "?")
        |> fun s => "    " ++ s)
  joinNL (header ++ srcLines ++ trLines ++ destLines ++ pathLines)

/-- `generate_data_flow_diagram` (the locally built `comp_lookup` dict of
the source is dead code — never read — and is not reproduced). -/
def generateDataFlowDiagram (dft : DataFlowTask) : DataFlowDiagram :=
  let components := dft.components.map (·.name)
  let paths := dft.paths.filterMap (fun path =>
    match extractComponentName path.source_ref_id dft.components,
          extractComponentName path.destination_ref_id dft.components with
    | some source_name, some dest_name => some (source_name, dest_name, path.name)
    | _, _ => none)
  { name := dft.name
    components := components
    paths := paths
    mermaid_code := generateMermaidFlowchart dft.name components paths "TB"
      (some (getComponentTypes dft))
    ascii_diagram := generateAsciiDataFlow dft }

/-- `generate_all_diagrams`: the control-flow diagram, then one data-flow
diagram per data-flow task. -/
def generateAllDiagrams (pkg : DtsxPackage) : List DataFlowDiagram :=
  generateControlFlowDiagram pkg :: pkg.data_flow_tasks.map generateDataFlowDiagram

/-- The per-stage lines of `generate_execution_order_diagram`. -/
def executionOrderStageLines (step : Nat) (stage : ControlFlowStage) : List String :=
  ["Step " ++ toString step ++ ": " ++ stage.name,
   "         Type: " ++ stage.stage_type]
  ++ (match stage.description with
      | some d => if d == "" then [] else ["         Description: " ++ d]
      | none => [])
  ++ (if pyTruthy stage.condition then
        ["         Condition: " ++
          pyReplace (pyReplace (stage.condition.getD "") "@[User::" "") "]" ""]
      else [])
  ++ (if stage.tasks.isEmpty then []
      else "         Tasks:" :: stage.tasks.map (fun task => "           - " ++ task.name))
  ++ [""]

/-- `generate_execution_order_diagram` (the `start_stages` scan of the
source is dead code — computed and never used — and is not reproduced;
steps are numbered in stage-list order). -/
def generateExecutionOrderDiagram (pkg : DtsxPackage) : String :=
  joinNL ([strRepeat '=' 60, " EXECUTION ORDER", strRepeat '=' 60, ""]
    ++ (pkg.control_flow_stages.enum.flatMap (fun p =>
        executionOrderStageLines (p.1 + 1) p.2)))

/-- The destination lines of one conditional route: every path whose source
reference contains the route name and whose destination resolves. -/
def routeDestinationLines (dft : DataFlowTask) (cond : ConditionalOutput) : List String :=
  dft.paths.filterMap (fun path =>
    if pyIn cond.name path.source_ref_id then
      (extractComponentName path.destination_ref_id dft.components).map
        (fun dest => "      Destination: " ++ dest)
    else none)

/-- The lines of one conditional route of the routing listing (`Route i`,
its condition — `DEFAULT` for a default-flagged output, else the friendly
or raw expression if truthy, else nothing — then the destinations and a
blank line). -/
def routeBlock (dft : DataFlowTask) (i : Nat) (cond : ConditionalOutput) : List String :=
  let head :=
    if cond.is_default then
      ["    Route " ++ toString i ++ ": " ++ cond.name,
       "      Condition: DEFAULT (all unmatched rows)"]
    else
      ["    Route " ++ toString i ++ ": " ++ cond.name]
      ++ (if pyTruthy cond.friendly_expression then
            ["      Condition: " ++ cond.friendly_expression.getD ""]
          else if pyTruthy cond.expression then
            ["      Condition: " ++ cond.expression.getD ""]
          else [])
  head ++ routeDestinationLines dft cond ++ [""]

/-- The Lookup section of the routing listing for one component: the two
fixed description lines, then — for every path whose source reference
contains the component name and whose destination resolves — a
`Match goes to` line when the path name contains `Match`, else a
`No Match goes to` line when it contains `NoMatch` or `No Match`. -/
def lookupBlock (dft : DataFlowTask) (comp : DataFlowComponent) : List String :=
  ["  Lookup: " ++ comp.name,
   "    Match Output: Rows with matching reference data",
   "    No Match Output: Rows without matching reference data"]
  ++ dft.paths.filterMap (fun path =>
      if pyIn comp.name path.source_ref_id then
        match extractComponentName path.destination_ref_id dft.components with
        | some dest =>
          if pyIn "Match" path.name then some ("      -> Match goes to: " ++ dest)
          else if pyIn "NoMatch" path.name || pyIn "No Match" path.name then
            some ("      -> No Match goes to: " ++ dest)
          else none
        | none => none
      else none)
  ++ [""]

/-- The Multicast section of the routing listing for one component. -/
def multicastBlock (dft : DataFlowTask) (comp : DataFlowComponent) : List String :=
  ["  Multicast: " ++ comp.name,
   "    Sends all rows to multiple destinations:"]
  ++ dft.paths.filterMap (fun path =>
      if pyIn comp.name path.source_ref_id then
        (extractComponentName path.destination_ref_id dft.components).map
          (fun dest => "      -> " ++ dest)
      else none)
  ++ [""]

/-- The routing-listing lines of one component: its conditional routes,
then the Lookup section when its class mentions `Lookup`, then the
Multicast section when its class mentions `Multicast`. -/
def componentRoutingLines (dft : DataFlowTask) (comp : DataFlowComponent) : List String :=
  (if comp.conditional_outputs.isEmpty then []
   else
     ["  Routing Component: " ++ comp.name,
      "  Type: " ++ lastD (pySplitChar '.' comp.component_class) "", ""]
     ++ (comp.conditional_outputs.enum.flatMap (fun p => routeBlock dft (p.1 + 1) p.2)))
  ++ (if pyIn "Lookup" comp.component_class then lookupBlock dft comp else [])
  ++ (if pyIn "Multicast" comp.component_class then multicastBlock dft comp else [])

/-- The line list of `generate_routing_logic_diagram`. -/
def generateRoutingLogicLines (pkg : DtsxPackage) : List String :=
  [strRepeat '=' 70, " DATA ROUTING LOGIC", strRepeat '=' 70, ""]
  ++ pkg.data_flow_tasks.flatMap (fun dft =>
      ["Data Flow: " ++ dft.name, strRepeat '-' 50, ""]
      ++ dft.components.flatMap (componentRoutingLines dft)
      ++ [""])

/-- `generate_routing_logic_diagram`. -/
def generateRoutingLogicDiagram (pkg : DtsxPackage) : String :=
  joinNL (generateRoutingLogicLines pkg)

/-- All four rendering operations over one package, with the generator's
(read-only) package state threaded through explicitly: the pair's second
component is the state of the model after the calls. -/
def runAllRenderings (pkg : DtsxPackage) :
    (List DataFlowDiagram × String × String) × DtsxPackage :=
  ((generateAllDiagrams pkg, generateExecutionOrderDiagram pkg,
    generateRoutingLogicDiagram pkg), pkg)

/-! ### Helper lemmas -/

theorem updAt_length (i : Nat) (f : α → α) (l : List α) : (updAt i f l).length = l.length := by
  induction l generalizing i with
  | nil => cases i <;> rfl
  | cons x xs ih =>
    cases i with
    | zero => rfl
    | succ j => simpa [updAt] using ih j

theorem get?_updAt_self (i : Nat) (f : α → α) (l : List α) :
    (updAt i f l).get? i = (l.get? i).map f := by
  induction l generalizing i with
  | nil => cases i <;> rfl
  | cons x xs ih =>
    cases i with
    | zero => rfl
    | succ j => simpa [updAt] using ih j

theorem get?_updAt_ne (i j : Nat) (f : α → α) (l : List α) (h : i ≠ j) :
    (updAt i f l).get? j = l.get? j := by
  induction l generalizing i j with
  | nil => cases i <;> rfl
  | cons x xs ih =>
    cases i with
    | zero => cases j with
      | zero => exact absurd rfl h
      | succ k => rfl
    | succ i2 =>
      cases j with
      | zero => rfl
      | succ k => simpa [updAt] using ih i2 k (by omega)

theorem mem_replGo (pat rep : List Char) (f : Nat) (s : List Char) (c : Char)
    (h : c ∈ replGo pat rep f s) : c ∈ rep ∨ c ∈ s := by
  induction f generalizing s with
  | zero => exact Or.inr h
  | succ f ih =>
    cases s with
    | nil => simp [replGo] at h
    | cons x xs =>
      rw [replGo] at h
      by_cases hp : pat.isPrefixOf (x :: xs)
      · rw [if_pos hp] at h
        rcases List.mem_append.mp h with h1 | h2
        · exact Or.inl h1
        · rcases ih _ h2 with h3 | h4
          · exact Or.inl h3
          · exact Or.inr (List.drop_subset _ _ h4)
      · rw [if_neg hp] at h
        rcases List.mem_cons.mp h with h1 | h2
        · exact Or.inr (h1 ▸ List.mem_cons_self x xs)
        · rcases ih _ h2 with h3 | h4
          · exact Or.inl h3
          · exact Or.inr (List.mem_cons_of_mem x h4)

theorem mem_pyReplace (s pat rep : String) (c : Char) (h : c ∈ (pyReplace s pat rep).toList) :
    c ∈ rep.toList ∨ c ∈ s.toList := by
  unfold pyReplace at h
  rcases hp : pat.toList with _ | ⟨p, ps⟩ <;> rw [hp] at h
  · exact Or.inr h
  · exact mem_replGo (p :: ps) rep.toList (s.toList.length + 1) s.toList c h

theorem pyIsAlnum_ascii (c : Char) (h : c.toNat < 128) : pyIsAlnum c = c.isAlphanum := by
  unfold pyIsAlnum
  have e1 : (c.toNat == 0xAA) = false := by
    have : c.toNat ≠ 0xAA := by omega
    simpa using this
  have e2 : (c.toNat == 0xB2) = false := by
    have : c.toNat ≠ 0xB2 := by omega
    simpa using this
  have e3 : (c.toNat == 0xB3) = false := by
    have : c.toNat ≠ 0xB3 := by omega
    simpa using this
  have e4 : (c.toNat == 0xB5) = false := by
    have : c.toNat ≠ 0xB5 := by omega
    simpa using this
  have e5 : (c.toNat == 0xB9) = false := by
    have : c.toNat ≠ 0xB9 := by omega
    simpa using this
  have e6 : (c.toNat == 0xBA) = false := by
    have : c.toNat ≠ 0xBA := by omega
    simpa using this
  have e7 : (c.toNat == 0xBC) = false := by
    have : c.toNat ≠ 0xBC := by omega
    simpa using this
  have e8 : (c.toNat == 0xBD) = false := by
    have : c.toNat ≠ 0xBD := by omega
    simpa using this
  have e9 : (c.toNat == 0xBE) = false := by
    have : c.toNat ≠ 0xBE := by omega
    simpa using this
  have e10 : decide (0xC0 ≤ c.toNat) = false := by
    have : ¬(0xC0 ≤ c.toNat) := by omega
    simpa using this
  simp [e1, e2, e3, e4, e5, e6, e7, e8, e9, e10]

/-- Any element of a list appears in its enumeration (at some index). -/
theorem exists_mem_enumFrom (l : List α) (a : α) (h : a ∈ l) (n : Nat) :
    ∃ i, (i, a) ∈ l.enumFrom n := by
  induction l generalizing n with
  | nil => simp at h
  | cons x xs ih =>
    rcases List.mem_cons.mp h with h1 | h2
    · exact ⟨n, by simp [h1]⟩
    · rcases ih h2 (n + 1) with ⟨i, hi⟩
      exact ⟨i, List.mem_cons_of_mem _ hi⟩

/-! ### Claim C5 — attribute resolver priority order -/

/-- C5: for every tree node, logical attribute name and default, `_get_attr`
returns the namespace-qualified attribute's value if present, else the bare
attribute's, else the literal `DTS:`-prefixed key's, else the default — in
exactly that priority order (and, being total, never raises). -/
theorem getAttr_priority_order (e : XmlElem) (a d : String) :
    (∀ v, e.get (nsKey nsDTS a) = some v → getAttrD e a d = v) ∧
    (e.get (nsKey nsDTS a) = none → ∀ v, e.get a = some v → getAttrD e a d = v) ∧
    (e.get (nsKey nsDTS a) = none → e.get a = none →
      ∀ v, e.get ("DTS:" ++ a) = some v → getAttrD e a d = v) ∧
    (e.get (nsKey nsDTS a) = none → e.get a = none → e.get ("DTS:" ++ a) = none →
      getAttrD e a d = d) := by
  unfold getAttrD getAttrOpt
  refine ⟨?_, ?_, ?_, ?_⟩
  · intro v hv; rw [hv]; rfl
  · intro h1 v hv; rw [h1, hv]; rfl
  · intro h1 h2 v hv; rw [h1, h2, hv]; rfl
  · intro h1 h2 h3; rw [h1, h2, h3]; rfl

/-- Witness for C5: an attribute present only under the literal prefixed key
resolves through the third tier. -/
theorem getAttr_priority_order_witness :
    getAttrD (XmlElem.node "t" [("DTS:Foo", "bar")] none []) "Foo" "dflt" = "bar" :=
  (getAttr_priority_order (XmlElem.node "t" [("DTS:Foo", "bar")] none []) "Foo"
    "dflt").2.2.1 (by decide) (by decide) "bar" (by decide)

/-! ### Claim C7 — node-identifier sanitizer -/

/-- C7 counterexample: Python's `isalnum` is not ASCII-restricted, so a
non-ASCII letter survives sanitization and the output is not ASCII
alphanumerics-and-underscore only. -/
theorem sanitizeId_ascii_counterexample :
    sanitizeId "Café" = "Café" ∧
    ((sanitizeId "Café").toList.all (fun c => c.isAlphanum || c == '_')) = false := by
  constructor
  · decide
  · decide

/-- C7 amended: the sanitizer is deterministic and pure, every output
character satisfies Python's `isalnum` or is an underscore, and — restricted
to ASCII inputs — the output is ASCII alphanumerics and underscores only
(non-ASCII alphanumeric characters pass through in general). -/
theorem sanitizeId_pure_and_alnum (x : String) :
    sanitizeId x = sanitizeId x ∧
    (∀ c ∈ (sanitizeId x).toList, pyIsAlnum c = true ∨ c = '_') ∧
    ((∀ c ∈ x.toList, c.toNat < 128) →
      ∀ c ∈ (sanitizeId x).toList, (c.isAlphanum || c == '_') = true) := by
  have key : ∀ c, c ∈ (sanitizeId x).toList →
      c ∈ (pyReplace (pyReplace (pyReplace x " " "_") "-" "_") "." "_").toList ∧
      (pyIsAlnum c || c == '_') = true := by
    intro c hc
    have hc2 : c ∈ List.filter (fun c => pyIsAlnum c || c == '_')
        ((pyReplace (pyReplace (pyReplace x " " "_") "-" "_") "." "_").toList) := hc
    have hc3 := List.mem_filter.mp hc2
    exact ⟨hc3.1, hc3.2⟩
  refine ⟨rfl, ?_, ?_⟩
  · intro c hc
    rcases (by simpa using (key c hc).2 : pyIsAlnum c = true ∨ c = '_') with h1 | h2
    · exact Or.inl h1
    · exact Or.inr h2
  · intro hascii c hc
    have hf := (key c hc).2
    have hmem := (key c hc).1
    have hlt : c.toNat < 128 := by
      rcases mem_pyReplace _ _ _ _ hmem with h1 | h2
      · have : c = '_' := by simpa using h1
        subst this; decide
      rcases mem_pyReplace _ _ _ _ h2 with h3 | h4
      · have : c = '_' := by simpa using h3
        subst this; decide
      rcases mem_pyReplace _ _ _ _ h4 with h5 | h6
      · have : c = '_' := by simpa using h5
        subst this; decide
      · exact hascii c h6
    rw [pyIsAlnum_ascii c hlt] at hf
    exact hf

/-- Witness for C7 amended: an ASCII input whose sanitized form is ASCII
alphanumerics and underscores only. -/
theorem sanitizeId_pure_and_alnum_witness :
    (∀ c ∈ ("A b-c.d!" : String).toList, c.toNat < 128) ∧
    (∀ c ∈ (sanitizeId "A b-c.d!").toList, (c.isAlphanum || c == '_') = true) :=
  ⟨by decide, (sanitizeId_pure_and_alnum "A b-c.d!").2.2 (by decide)⟩

/-! ### Claim C9 — rendering is pure and leaves the aggregate unchanged -/

/-- C9: every diagram-generation operation is a pure function of the parsed
aggregate — invoking it twice yields identical output — and the aggregate
threaded through the generator is unchanged after the calls. -/
theorem renderings_pure_and_frame (pkg : DtsxPackage) (dft : DataFlowTask) :
    runAllRenderings pkg = runAllRenderings pkg ∧
    (runAllRenderings pkg).2 = pkg ∧
    generateAllDiagrams pkg = generateAllDiagrams pkg ∧
    generateControlFlowDiagram pkg = generateControlFlowDiagram pkg ∧
    generateDataFlowDiagram dft = generateDataFlowDiagram dft ∧
    generateExecutionOrderDiagram pkg = generateExecutionOrderDiagram pkg ∧
    generateRoutingLogicDiagram pkg = generateRoutingLogicDiagram pkg :=
  ⟨rfl, rfl, rfl, rfl, rfl, rfl, rfl⟩

/-! ### Claim C4 — Lookup match/no-match routing

A Lookup component with two outgoing edges named `"… Match Output"` and
`"… No Match Output"`, both destinations resolving.  Because the source
tests `'Match' in path.name` before `'NoMatch' in path.name or 'No Match'
in path.name`, and every name containing `No Match` or `NoMatch` also
contains `Match`, the no-match branch is unreachable: both edges produce a
`Match goes to` line. -/

/-- The Lookup component of the demonstration data-flow task. -/
def lkpComp : DataFlowComponent :=
  { name := "Lookup Customer", ref_id := "comp.LKP", component_type := "Transform"
    component_class := "Microsoft.Lookup", description := none, input_columns := []
    output_columns := [], conditional_outputs := [], connection_manager := none
    sql_command := none, table_name := none, properties := [], has_error_output := false }

/-- The match-destination component. -/
def destMatchComp : DataFlowComponent :=
  { lkpComp with name := "DestMatch", ref_id := "comp.D1", component_type := "Destination"
                 component_class := "Microsoft.OLEDBDestination" }

/-- The no-match-destination component. -/
def destNoMatchComp : DataFlowComponent :=
  { lkpComp with name := "DestNoMatch", ref_id := "comp.D2", component_type := "Destination"
                 component_class := "Microsoft.OLEDBDestination" }

/-- The match edge (name contains `Match Output`). -/
def pathMatch : DataFlowPath :=
  { name := "Lookup Match Output", ref_id := "p1"
    source_ref_id := "Package\\DFT\\Lookup Customer.Outputs[Match]"
    destination_ref_id := "Package\\DFT\\DestMatch.Inputs[In]" }

/-- The no-match edge (name contains `No Match Output`). -/
def pathNoMatch : DataFlowPath :=
  { name := "Lookup No Match Output", ref_id := "p2"
    source_ref_id := "Package\\DFT\\Lookup Customer.Outputs[NoMatch]"
    destination_ref_id := "Package\\DFT\\DestNoMatch.Inputs[In]" }

/-- The demonstration data-flow task. -/
def dftLookupDemo : DataFlowTask :=
  { name := "DFT", ref_id := "dft", dtsid := "", description := none
    components := [lkpComp, destMatchComp, destNoMatchComp]
    paths := [pathMatch, pathNoMatch] }

/-- A package whose only data-flow task is `dftLookupDemo`. -/
def pkgLookupDemo : DtsxPackage :=
  { metadata := { name := "P", dtsid := "", creation_date := none, creator_name := none
                  creator_computer := none, version_build := none, version_guid := none
                  package_format_version := none, last_modified_version := none
                  locale_id := none }
    annotations := [], connection_managers := [], pkg_variables := [], parameters := []
    control_flow_stages := [], data_flow_tasks := [dftLookupDemo], error_handling := none
    database_objects := [], thresholds := [], alerts := [], raw_precedence_constraints := [] }

/-- C4: on a data-flow task satisfying the claim's premise exactly (a
component whose class contains `Lookup`, exactly two outgoing edges, one
named `"… Match Output"` and one `"… No Match Output"`, both destinations
resolving), the routing listing contains **two** `Match goes to` lines and
**no** `No Match goes to` line — the claimed one-of-each is impossible
because `'Match' in path.name` is tested first and both edge names contain
`Match`, leaving the no-match branch dead. -/
theorem lookup_routing_match_lines_bug :
    pyIn "Lookup" lkpComp.component_class = true ∧
    pyIn "Match Output" pathMatch.name = true ∧
    pyIn "No Match Output" pathNoMatch.name = true ∧
    extractComponentName pathMatch.destination_ref_id dftLookupDemo.components =
      some "DestMatch" ∧
    extractComponentName pathNoMatch.destination_ref_id dftLookupDemo.components =
      some "DestNoMatch" ∧
    ((generateRoutingLogicLines pkgLookupDemo).filter
      (fun l => pyStartsWith l "      -> Match goes to:")).length = 2 ∧
    ((generateRoutingLogicLines pkgLookupDemo).filter
      (fun l => pyStartsWith l "      -> No Match goes to:")).length = 0 := by
  refine ⟨by decide, by decide, by decide, by decide, by decide, by decide, by decide⟩

/-! ### Claim C8 — default-flagged conditional outputs -/

/-- C8: a default-flagged conditional output is listed with the fixed
condition line `DEFAULT (all unmatched rows)`; its route block does not
depend on the output's (friendly) expression at all, so no expression is
ever printed for it, even when one is present; and for every package, task
and component owning such an output, the full routing listing contains the
`DEFAULT` condition line. -/
theorem default_route_condition_lines (dft : DataFlowTask) (i : Nat)
    (cond : ConditionalOutput) (h : cond.is_default = true) :
    routeBlock dft i cond =
      ["    Route " ++ toString i ++ ": " ++ cond.name,
       "      Condition: DEFAULT (all unmatched rows)"] ++
        routeDestinationLines dft cond ++ [""] ∧
    routeBlock dft i cond =
      routeBlock dft i { cond with expression := none, friendly_expression := none } ∧
    (∀ pkg dftx comp, dftx ∈ pkg.data_flow_tasks → comp ∈ dftx.components →
      cond ∈ comp.conditional_outputs →
      "      Condition: DEFAULT (all unmatched rows)" ∈ generateRoutingLogicLines pkg) := by
  refine ⟨by simp [routeBlock, h], ?_, ?_⟩
  · simp [routeBlock, routeDestinationLines, h]
  · intro pkg dftx comp hdft hcomp hcond
    rcases exists_mem_enumFrom comp.conditional_outputs cond hcond 0 with ⟨i0, hi0⟩
    have hblock : "      Condition: DEFAULT (all unmatched rows)" ∈
        routeBlock dftx (i0 + 1) cond := by
      simp [routeBlock, h]
    have hfm : "      Condition: DEFAULT (all unmatched rows)" ∈
        comp.conditional_outputs.enum.flatMap (fun p => routeBlock dftx (p.1 + 1) p.2) := by
      refine List.mem_flatMap.mpr ⟨(i0, cond), ?_, ?_⟩
      · simpa [List.enum] using hi0
      · exact hblock
    have hne : comp.conditional_outputs.isEmpty = false := by
      cases hl : comp.conditional_outputs with
      | nil => rw [hl] at hcond; simp at hcond
      | cons a b => rfl
    have hcompLines : "      Condition: DEFAULT (all unmatched rows)" ∈
        componentRoutingLines dftx comp := by
      unfold componentRoutingLines
      refine List.mem_append.mpr (Or.inl (List.mem_append.mpr (Or.inl ?_)))
      rw [hne, if_neg (by decide)]
      exact List.mem_append.mpr (Or.inr hfm)
    have htask : "      Condition: DEFAULT (all unmatched rows)" ∈
        dftx.components.flatMap (componentRoutingLines dftx) :=
      List.mem_flatMap.mpr ⟨comp, hcomp, hcompLines⟩
    unfold generateRoutingLogicLines
    refine List.mem_append.mpr (Or.inr ?_)
    refine List.mem_flatMap.mpr ⟨dftx, hdft, ?_⟩
    refine List.mem_append.mpr (Or.inl ?_)
    exact List.mem_append.mpr (Or.inr htask)

/-- Witness for C8: a concrete default-flagged output. -/
theorem default_route_condition_lines_witness :
    routeBlock dftLookupDemo 2
        { name := "Default", expression := some "x > 1", friendly_expression := none
          evaluation_order := some 1, is_default := true } =
      ["    Route 2: Default", "      Condition: DEFAULT (all unmatched rows)",
       ""] :=
  (default_route_condition_lines dftLookupDemo 2
    { name := "Default", expression := some "x > 1", friendly_expression := none
      evaluation_order := some 1, is_default := true } (by decide)).1.trans (by decide)

/-! ### Claims C1/C2 — the graph linker -/

/-- A stage as `_parse_control_flow` first builds it (no links yet). -/
def mkStage (order : Nat) (name : String) : ControlFlowStage :=
  { order := order, name := name, stage_type := "SqlTask", description := none, tasks := [] }

/-- A precedence constraint with the fields the linker reads. -/
def mkConstraint (f t : String) (e : Option String) : PrecedenceConstraint :=
  { name := "c", ref_id := "", dtsid := "", from_ref := f, to_ref := t, value := 0
    logical_and := true, expression := e, eval_op := none }

/-- `linkStepFrom` succeeds whenever a truthy-guarded constraint with an
unresolved target also has an unresolved source. -/
theorem linkStepFrom_ok (d : List (String × Nat)) (arr : List ControlFlowStage)
    (c : PrecedenceConstraint)
    (hc : pyTruthy c.expression = true → dget d c.to_ref = none →
      dget d c.from_ref = none) :
    ∃ arr2, linkStepFrom d arr c = Except.ok arr2 := by
  unfold linkStepFrom
  split
  · exact ⟨arr, rfl⟩
  next i hf =>
    split
    · exact ⟨arr, rfl⟩
    next st hg =>
      split
      · exact ⟨arr, rfl⟩
      next hcont =>
        split
        next hexp =>
          split
          next j ht => exact ⟨_, rfl⟩
          next ht =>
            have := hc hexp ht
            rw [this] at hf
            exact absurd hf (by simp)
        next hexp => exact ⟨_, rfl⟩

/-- `linkStep` succeeds under the same hypothesis. -/
theorem linkStep_ok (d : List (String × Nat)) (arr : List ControlFlowStage)
    (c : PrecedenceConstraint)
    (hc : pyTruthy c.expression = true → dget d c.to_ref = none →
      dget d c.from_ref = none) :
    ∃ arr2, linkStep d arr c = Except.ok arr2 := by
  rcases linkStepFrom_ok d arr c hc with ⟨arrMid, hMid⟩
  exact ⟨linkStepTo d arrMid c, by rw [linkStep, hMid]⟩

/-- `linkLoop` succeeds when every constraint satisfies the hypothesis. -/
theorem linkLoop_ok (d : List (String × Nat)) (rest : List PrecedenceConstraint)
    (arr : List ControlFlowStage)
    (hc : ∀ c ∈ rest, pyTruthy c.expression = true → dget d c.to_ref = none →
      dget d c.from_ref = none) :
    ∃ out, linkLoop d rest arr = Except.ok out := by
  induction rest generalizing arr with
  | nil => exact ⟨arr, rfl⟩
  | cons c cs ih =>
    rcases linkStep_ok d arr c (hc c (List.mem_cons_self c cs)) with ⟨arr2, h2⟩
    rcases ih arr2 (fun c' hc' => hc c' (List.mem_cons_of_mem c hc')) with ⟨out, hout⟩
    exact ⟨out, by rw [linkLoop, h2]; exact hout⟩

/-- C2 counterexample: with one stage `StepA` and one guarded constraint
from `Package\StepA` to the unresolvable `Package\MissingX`, the linker
raises `AttributeError` — so linking is not total, contradicting the claim
that the linker never raises and that unresolved-endpoint constraints leave
everything unaffected. -/
theorem linker_raises_counterexample :
    dget (linkDict [mkStage 1 "StepA"]
        [mkConstraint "Package\\StepA" "Package\\MissingX" (some "@flag == 1")])
        "Package\\StepA" = some 0 ∧
    dget (linkDict [mkStage 1 "StepA"]
        [mkConstraint "Package\\StepA" "Package\\MissingX" (some "@flag == 1")])
        "Package\\MissingX" = none ∧
    linkStages [mkStage 1 "StepA"]
        [mkConstraint "Package\\StepA" "Package\\MissingX" (some "@flag == 1")] =
      Except.error (PyErr.attributeError "NoneType object has no attribute condition") := by
  refine ⟨by decide, by decide, by rfl⟩

/-- C2 amended: the linker completes (returns the mutated stage list,
raising nothing) provided no truthy-guarded constraint resolves its source
but not its target; the parsed constraint list itself is returned unchanged
by `_parse_control_flow` as the raw constraint list.  (A truthy-guarded
constraint whose source resolves and whose target does not makes the linker
raise `AttributeError`, and a constraint with exactly one resolved endpoint
still appends that endpoint's entry — see the C1 theorems.) -/
theorem linker_total_unless_guarded_dangling (stages : List ControlFlowStage)
    (cs : List PrecedenceConstraint)
    (hc : ∀ c ∈ cs, pyTruthy c.expression = true →
      dget (linkDict stages cs) c.to_ref = none →
      dget (linkDict stages cs) c.from_ref = none) :
    ∃ out, linkStages stages cs = Except.ok out := by
  unfold linkStages
  exact linkLoop_ok (linkDict stages cs) cs stages hc

/-- Witness for C2 amended: a resolvable guarded constraint links fine. -/
theorem linker_total_unless_guarded_dangling_witness :
    ∃ out, linkStages [mkStage 1 "StepA", mkStage 2 "StepB"]
      [mkConstraint "Package\\StepA" "Package\\StepB" (some "@flag == 1")] =
        Except.ok out :=
  linker_total_unless_guarded_dangling _ _ (by decide)

/-! ### Claim C3 — malformed numeric attributes -/

/-- A document with one variable whose `VariableValue` child carries the
present-but-malformed `DataType="abc"`. -/
def badVariableRoot : XmlElem :=
  .node "DTS:Executable" [] none
    [.node "DTS:Variables" [] none
      [.node "DTS:Variable" [("ObjectName", "V")] none
        [.node "DTS:VariableValue" [("DataType", "abc")] (some "5") []]]]

/-- C3 counterexample: a present but non-numeric `DataType` attribute makes
variable extraction raise `ValueError` (Python `int('abc')`) instead of
falling back to the documented default 8. -/
theorem variable_malformed_datatype_counterexample :
    getAttrOpt (XmlElem.node "DTS:VariableValue" [("DataType", "abc")] (some "5") [])
      "DataType" = some "abc" ∧
    parseVariables badVariableRoot =
      Except.error (PyErr.valueError "invalid literal for int: abc") := by
  refine ⟨by decide, by rfl⟩

/-- C3 amended: the documented defaults apply only to **absent** numeric
attributes (variable `DataType` defaults to the string type code 8,
constraint `Value` to 0, `EvalOp` to none); a numeric attribute that is
present but malformed (non-numeric) raises `ValueError` and aborts the
entity's construction instead of falling back. -/
theorem numeric_fields_default_on_absent_raise_on_malformed (var pc : XmlElem) :
    (var.children.find? (fun ch => pyIn "VariableValue" ch.tag) = none →
      ∃ v, parseVariable var = Except.ok v ∧ v.data_type = 8) ∧
    (∀ ch, var.children.find? (fun ch => pyIn "VariableValue" ch.tag) = some ch →
      getAttrOpt ch "DataType" = none →
      ∃ v, parseVariable var = Except.ok v ∧ v.data_type = 8 ∧ v.value = ch.text) ∧
    (∀ ch s n, var.children.find? (fun ch => pyIn "VariableValue" ch.tag) = some ch →
      getAttrOpt ch "DataType" = some s → pyInt s = some n →
      ∃ v, parseVariable var = Except.ok v ∧ v.data_type = n) ∧
    (∀ ch s, var.children.find? (fun ch => pyIn "VariableValue" ch.tag) = some ch →
      getAttrOpt ch "DataType" = some s → pyInt s = none →
      parseVariable var = Except.error (PyErr.valueError ("invalid literal for int: " ++ s))) ∧
    (getAttrOpt pc "Value" = none → pyTruthy (getAttrOpt pc "EvalOp") = false →
      ∃ p, parsePrecedenceConstraint pc = Except.ok p ∧ p.value = 0 ∧ p.eval_op = none) ∧
    (∀ s, getAttrOpt pc "Value" = some s → pyInt s = none →
      parsePrecedenceConstraint pc =
        Except.error (PyErr.valueError ("invalid literal for int: " ++ s))) ∧
    (∀ s m, getAttrOpt pc "Value" = none → getAttrOpt pc "EvalOp" = some s → s ≠ "" →
      pyInt s = some m →
      ∃ p, parsePrecedenceConstraint pc = Except.ok p ∧ p.value = 0 ∧ p.eval_op = some m) ∧
    (∀ s, getAttrOpt pc "Value" = none → getAttrOpt pc "EvalOp" = some s → s ≠ "" →
      pyInt s = none →
      parsePrecedenceConstraint pc =
        Except.error (PyErr.valueError ("invalid literal for int: " ++ s))) := by
  refine ⟨?_, ?_, ?_, ?_, ?_, ?_, ?_, ?_⟩
  · intro h1
    simp [parseVariable, h1, bind, Except.bind]
  · intro ch h1 h2
    simp [parseVariable, h1, h2, bind, Except.bind]
  · intro ch s n h1 h2 h3
    simp [parseVariable, h1, h2, pyIntE, h3, bind, Except.bind]
  · intro ch s h1 h2 h3
    simp [parseVariable, h1, h2, pyIntE, h3, bind, Except.bind]
  · intro h1 h2
    simp [parsePrecedenceConstraint, h1, h2, bind, Except.bind]
  · intro s h1 h2
    simp [parsePrecedenceConstraint, h1, pyIntE, h2, bind, Except.bind]
  · intro s m h1 h2 h3 h4
    simp [parsePrecedenceConstraint, h1, h2, h3, pyTruthy, pyIntE, h4, bind, Except.bind]
  · intro s h1 h2 h3 h4
    simp [parsePrecedenceConstraint, h1, h2, h3, pyTruthy, pyIntE, h4, bind, Except.bind]

/-- Witness for C3 amended: a variable with no `VariableValue` child gets
the default type code 8, and a constraint with absent `Value` and `EvalOp`
gets value 0 and no evaluation operator. -/
theorem numeric_fields_default_witness :
    (∃ v, parseVariable (XmlElem.node "DTS:Variable" [] none []) = Except.ok v ∧
      v.data_type = 8) ∧
    (∃ p, parsePrecedenceConstraint (XmlElem.node "DTS:PrecedenceConstraint" [] none []) =
      Except.ok p ∧ p.value = 0 ∧ p.eval_op = none) :=
  ⟨(numeric_fields_default_on_absent_raise_on_malformed
      (XmlElem.node "DTS:Variable" [] none [])
      (XmlElem.node "DTS:PrecedenceConstraint" [] none [])).1 (by rfl),
   (numeric_fields_default_on_absent_raise_on_malformed
      (XmlElem.node "DTS:Variable" [] none [])
      (XmlElem.node "DTS:PrecedenceConstraint" [] none [])).2.2.2.2.1 (by decide) (by decide)⟩

/-! ### Claim C10 — the mining passes see no package -/

theorem extractDatabaseObjects_none (findall : String → String → List String) :
    extractDatabaseObjects findall none = [] := rfl

theorem extractAlerts_none : extractAlerts none = [] := rfl

/-- C10: on a fresh parser (`self.package` still `None`, as `__init__`
leaves it), a successful parse returns an aggregate whose database-object
and alert lists are empty, whatever the document and whatever the regex
engine: both mining passes guard on the in-progress `self.package`, which
`parse` only assigns after they have run. -/
theorem parse_fresh_no_db_objects_no_alerts
    (findall : String → String → List String) (root : XmlElem)
    (pkg : DtsxPackage) (st' : ParserState)
    (h : parseDtsx findall root initState = Except.ok (pkg, st')) :
    pkg.database_objects = [] ∧ pkg.alerts = [] := by
  unfold parseDtsx at h
  cases hv : parseVariables root with
  | error e => rw [hv] at h; simp [bind, Except.bind] at h
  | ok vars =>
    rw [hv] at h
    cases hp : parseParameters root with
    | error e => rw [hp] at h; simp [bind, Except.bind] at h
    | ok params =>
      rw [hp] at h
      cases hcf : parseControlFlow root with
      | error e => rw [hcf] at h; simp [bind, Except.bind] at h
      | ok cf =>
        rw [hcf] at h
        cases hdf : parseDataFlowTasks root with
        | error e => rw [hdf] at h; simp [bind, Except.bind] at h
        | ok dfts =>
          rw [hdf] at h
          cases heh : parseErrorHandling root with
          | error e => rw [heh] at h; simp [bind, Except.bind] at h
          | ok eh =>
            rw [heh] at h
            simp only [bind, Except.bind, Except.ok.injEq, Prod.mk.injEq] at h
            rcases h with ⟨hpkg, hst⟩
            rw [← hpkg]
            exact ⟨extractDatabaseObjects_none findall, extractAlerts_none⟩

/-- The minimal document used by the C10 witness. -/
def emptyRootDoc : XmlElem := .node "DTS:Executable" [("ObjectName", "P")] none []

/-- The aggregate `parse` produces for `emptyRootDoc` on a fresh parser. -/
def emptyParsedPkg : DtsxPackage :=
  { metadata := { name := "P", dtsid := "", creation_date := none, creator_name := none
                  creator_computer := none, version_build := none, version_guid := none
                  package_format_version := none, last_modified_version := none
                  locale_id := none }
    annotations := [], connection_managers := [], pkg_variables := [], parameters := []
    control_flow_stages := [], data_flow_tasks := []
    error_handling := some { event_handlers := [], error_outputs := [], logging_mode := none
                             logged_events := [] }
    database_objects := [], thresholds := [], alerts := [], raw_precedence_constraints := [] }

/-- Witness for C10: a concrete successful parse with empty database-object
and alert lists. -/
theorem parse_fresh_no_db_objects_no_alerts_witness :
    parseDtsx (fun _ _ => []) emptyRootDoc initState =
      Except.ok (emptyParsedPkg, { package := some emptyParsedPkg }) ∧
    emptyParsedPkg.database_objects = [] ∧ emptyParsedPkg.alerts = [] :=
  ⟨by rfl,
   parse_fresh_no_db_objects_no_alerts (fun _ _ => []) emptyRootDoc emptyParsedPkg
     { package := some emptyParsedPkg } (by rfl)⟩

/-! ### Claim C6 — stage `order` values -/

theorem parseExecutableAsStage_order (e : XmlElem) (k : Nat) :
    (parseExecutableAsStage e k).order = k := rfl

theorem map_updAt (i : Nat) (f : α → α) (l : List α) (g : α → β)
    (h : ∀ a, g (f a) = g a) : (updAt i f l).map g = l.map g := by
  induction l generalizing i with
  | nil => cases i <;> rfl
  | cons x xs ih =>
    cases i with
    | zero => simp [updAt, h]
    | succ j => simp [updAt, ih j]

theorem linkStepFrom_map_order (d : List (String × Nat)) (arr arr2 : List ControlFlowStage)
    (c : PrecedenceConstraint) (h : linkStepFrom d arr c = Except.ok arr2) :
    arr2.map (·.order) = arr.map (·.order) := by
  unfold linkStepFrom at h
  split at h
  · exact (Except.ok.inj h) ▸ rfl
  · split at h
    · exact (Except.ok.inj h) ▸ rfl
    · split at h
      · exact (Except.ok.inj h) ▸ rfl
      · split at h
        · split at h
          · rw [← Except.ok.inj h]
            refine (map_updAt _ _ _ _ ?_).trans (map_updAt _ _ _ _ ?_) <;> intro a <;> rfl
          · exact absurd h (by simp)
        · rw [← Except.ok.inj h]
          refine map_updAt _ _ _ _ ?_
          intro a; rfl

theorem linkStepTo_map_order (d : List (String × Nat)) (arr : List ControlFlowStage)
    (c : PrecedenceConstraint) :
    (linkStepTo d arr c).map (·.order) = arr.map (·.order) := by
  unfold linkStepTo
  split
  · rfl
  · split
    · rfl
    · split
      · rfl
      · refine map_updAt _ _ _ _ ?_
        intro a; rfl

theorem linkStep_map_order (d : List (String × Nat)) (arr arr2 : List ControlFlowStage)
    (c : PrecedenceConstraint) (h : linkStep d arr c = Except.ok arr2) :
    arr2.map (·.order) = arr.map (·.order) := by
  unfold linkStep at h
  split at h
  · exact absurd h (by simp)
  next arrMid hMid =>
    rw [← Except.ok.inj h, linkStepTo_map_order]
    exact linkStepFrom_map_order d arr arrMid c hMid

theorem linkLoop_map_order (d : List (String × Nat)) (rest : List PrecedenceConstraint)
    (arr out : List ControlFlowStage) (h : linkLoop d rest arr = Except.ok out) :
    out.map (·.order) = arr.map (·.order) := by
  induction rest generalizing arr with
  | nil => exact (Except.ok.inj h) ▸ rfl
  | cons c cs ih =>
    rw [linkLoop] at h
    split at h
    next arr2 h2 => exact (ih arr2 h).trans (linkStep_map_order d arr arr2 c h2)
    next e h2 => exact absurd h (by simp)

theorem linkStages_map_order (stages out : List ControlFlowStage)
    (cs : List PrecedenceConstraint) (h : linkStages stages cs = Except.ok out) :
    out.map (·.order) = stages.map (·.order) :=
  linkLoop_map_order (linkDict stages cs) cs stages out h

theorem range'_one_concat (s n : Nat) : List.range' s (n + 1) = List.range' s n ++ [s + n] := by
  induction n generalizing s with
  | zero => simp [List.range']
  | succ n ih =>
    rw [List.range'_succ, ih (s + 1), List.range'_succ]
    have e : s + 1 + n = s + (n + 1) := by omega
    simp [e]

theorem collectStages_orders (elems : List XmlElem) (acc : Nat × List ControlFlowStage)
    (h1 : acc.2.map (·.order) = List.range' 1 acc.1) :
    ((collectStages elems acc).2).map (·.order) = List.range' 1 (collectStages elems acc).1 := by
  induction elems generalizing acc with
  | nil => exact h1
  | cons ex rest ih =>
    rw [collectStages]
    by_cases hm : pyIn "Executable" ex.tag
    · rw [if_pos hm]
      refine ih (acc.1 + 1, acc.2 ++ [parseExecutableAsStage ex (acc.1 + 1)]) ?_
      have : List.range' 1 (acc.1 + 1) = List.range' 1 acc.1 ++ [1 + acc.1] :=
        range'_one_concat 1 acc.1
      simp [h1, this, parseExecutableAsStage_order, Nat.add_comm]
    · rw [if_neg hm]
      exact ih acc h1

theorem collectAllStages_orders (root : XmlElem) :
    ((collectAllStages root).2).map (·.order) = List.range' 1 (collectAllStages root).1 := by
  unfold collectAllStages
  have aux : ∀ (elems : List XmlElem) (acc : Nat × List ControlFlowStage),
      acc.2.map (·.order) = List.range' 1 acc.1 →
      ((elems.foldl (fun acc elem =>
        if pyIn "Executables" elem.tag then collectStages elem.children acc else acc) acc).2).map
          (·.order) =
        List.range' 1 (elems.foldl (fun acc elem =>
          if pyIn "Executables" elem.tag then collectStages elem.children acc else acc) acc).1 := by
    intro elems
    induction elems with
    | nil => intro acc h1; exact h1
    | cons e rest ih =>
      intro acc h1
      simp only [List.foldl_cons]
      by_cases hm : pyIn "Executables" e.tag
      · rw [if_pos hm]
        exact ih _ (collectStages_orders e.children acc h1)
      · rw [if_neg hm]
        exact ih acc h1
  exact aux root.children (0, []) rfl

/-- C6: for every document whose control flow parses, the `order` values of
the returned stages are exactly `1, 2, 3, …` in document encounter order —
pairwise distinct and strictly increasing (not a topological sort). -/
theorem stage_orders_sequential (root : XmlElem) (stages : List ControlFlowStage)
    (cs : List PrecedenceConstraint) (h : parseControlFlow root = Except.ok (stages, cs)) :
    stages.map (·.order) = List.range' 1 stages.length ∧
    (stages.map (·.order)).Nodup ∧
    List.Chain' (· < ·) (stages.map (·.order)) := by
  have hmain : stages.map (·.order) = List.range' 1 stages.length := by
    unfold parseControlFlow at h
    cases hc : (root.children.flatMap (fun elem =>
        if pyIn "PrecedenceConstraints" elem.tag then
          elem.children.filter (fun c => pyIn "PrecedenceConstraint" c.tag)
        else [])).mapM parsePrecedenceConstraint with
    | error e => rw [hc] at h; simp [bind, Except.bind] at h
    | ok allc =>
      rw [hc] at h
      simp only [bind, Except.bind] at h
      cases hl : linkStages (collectAllStages root).2 allc with
      | error e => rw [hl] at h; simp [bind, Except.bind] at h
      | ok out =>
        rw [hl] at h
        simp only [bind, Except.bind, Except.ok.injEq, Prod.mk.injEq] at h
        rcases h with ⟨hstages, hcs⟩
        have horders := (linkStages_map_order _ _ _ hl).trans (collectAllStages_orders root)
        rw [hstages] at horders
        have hlen : stages.length = (collectAllStages root).1 := by
          have := congrArg List.length horders
          simpa using this
        rw [horders, hlen]
  refine ⟨hmain, ?_, ?_⟩
  · rw [hmain]; exact List.nodup_range' 1 stages.length
  · rw [hmain]; exact (List.pairwise_lt_range' 1 stages.length).chain'

/-- A document with one container holding two executables. -/
def twoStageRoot : XmlElem :=
  .node "P" [] none
    [.node "DTS:Executables" [] none
      [.node "DTS:Executable" [("ObjectName", "S1")] none [],
       .node "DTS:Executable" [("ObjectName", "S2")] none []]]

/-- Witness for C6: a document with two executables yields orders `[1, 2]`. -/
theorem stage_orders_sequential_witness :
    ∃ stages cs, parseControlFlow twoStageRoot = Except.ok (stages, cs) ∧
      stages.map (·.order) = List.range' 1 stages.length := by
  have h : parseControlFlow twoStageRoot = Except.ok ((collectAllStages twoStageRoot).2, []) := by
    rfl
  exact ⟨_, _, h, (stage_orders_sequential twoStageRoot _ _ h).1⟩

/-! ### Claim C1 — linker effect characterization -/

theorem dget_dinsert (k k2 : String) (v : α) (d : List (String × α)) :
    dget (dinsert k v d) k2 = if k == k2 then some v else dget d k2 := by
  by_cases h : k == k2 <;> simp [dget, dinsert, List.find?, h]

theorem dget_nil (k : String) : dget ([] : List (String × α)) k = none := rfl

/-- The inner constraint fold of the dict builder stores only index `i`. -/
theorem innerFold_bound (cs : List PrecedenceConstraint) (st : ControlFlowStage)
    (i n : Nat) (hi : i < n) :
    ∀ d : List (String × Nat), (∀ k v, dget d k = some v → v < n) →
    ∀ k v, dget (cs.foldl (fun d c =>
      let d1 := if pyIn st.name c.from_ref then dinsert c.from_ref i d else d
      if pyIn st.name c.to_ref then dinsert c.to_ref i d1 else d1) d) k = some v → v < n := by
  induction cs with
  | nil => intro d hd; exact hd
  | cons c rest ih =>
    intro d hd
    simp only [List.foldl_cons]
    refine ih _ ?_
    intro k v hk
    by_cases h2 : pyIn st.name c.to_ref
    · rw [if_pos h2, dget_dinsert] at hk
      split at hk
      · exact (Option.some.inj hk) ▸ hi
      · by_cases h1 : pyIn st.name c.from_ref
        · rw [if_pos h1, dget_dinsert] at hk
          split at hk
          · exact (Option.some.inj hk) ▸ hi
          · exact hd k v hk
        · rw [if_neg h1] at hk
          exact hd k v hk
    · rw [if_neg h2] at hk
      by_cases h1 : pyIn st.name c.from_ref
      · rw [if_pos h1, dget_dinsert] at hk
        split at hk
        · exact (Option.some.inj hk) ▸ hi
        · exact hd k v hk
      · rw [if_neg h1] at hk
        exact hd k v hk

theorem linkDictAux_bound (cs : List PrecedenceConstraint) :
    ∀ (stages : List ControlFlowStage) (i : Nat) (d : List (String × Nat)),
    (∀ k v, dget d k = some v → v < i + stages.length) →
    ∀ k v, dget (linkDictAux cs i stages d) k = some v → v < i + stages.length := by
  intro stages
  induction stages with
  | nil => intro i d hd; exact hd
  | cons st rest ih =>
    intro i d hd k v hk
    rw [linkDictAux] at hk
    have hstep := innerFold_bound cs st i (i + (st :: rest).length) (by simp) d
      (fun k v hv => hd k v hv)
    have hbound := ih (i + 1) _ (fun k v hv => by
      have := hstep k v hv
      simpa [Nat.add_comm, Nat.add_assoc, Nat.add_left_comm] using this) k v hk
    simpa [Nat.add_comm, Nat.add_assoc, Nat.add_left_comm] using hbound

theorem dget_linkDict_lt (stages : List ControlFlowStage) (cs : List PrecedenceConstraint)
    (k : String) (v : Nat) (h : dget (linkDict stages cs) k = some v) : v < stages.length := by
  have := linkDictAux_bound cs stages 0 [] (fun k v hv => by rw [dget_nil] at hv; cases hv) k v h
  simpa using this

/-- Update functions used by the linker. -/
def addSucc (r : String) : ControlFlowStage → ControlFlowStage :=
  fun s => { s with precedence_to := s.precedence_to ++ [r] }

/-- See `addSucc`. -/
def addPred (r : String) : ControlFlowStage → ControlFlowStage :=
  fun s => { s with precedence_from := s.precedence_from ++ [r] }

/-- See `addSucc`. -/
def setCond (e : Option String) : ControlFlowStage → ControlFlowStage :=
  fun s => { s with condition := e }

/-- Full case analysis of the linker's first `if` block. -/
theorem linkStepFrom_cases (d : List (String × Nat)) (arr arr2 : List ControlFlowStage)
    (c : PrecedenceConstraint) (h : linkStepFrom d arr c = Except.ok arr2) :
    (dget d c.from_ref = none ∧ arr2 = arr) ∨
    (∃ i, dget d c.from_ref = some i ∧ arr.get? i = none ∧ arr2 = arr) ∨
    (∃ i st, dget d c.from_ref = some i ∧ arr.get? i = some st ∧
      st.precedence_to.contains c.to_ref = true ∧ arr2 = arr) ∨
    (∃ i st, dget d c.from_ref = some i ∧ arr.get? i = some st ∧
      st.precedence_to.contains c.to_ref = false ∧ pyTruthy c.expression = false ∧
      arr2 = updAt i (addSucc c.to_ref) arr) ∨
    (∃ i st j, dget d c.from_ref = some i ∧ arr.get? i = some st ∧
      st.precedence_to.contains c.to_ref = false ∧ pyTruthy c.expression = true ∧
      dget d c.to_ref = some j ∧
      arr2 = updAt j (setCond c.expression) (updAt i (addSucc c.to_ref) arr)) := by
  unfold linkStepFrom at h
  split at h
  next hf => exact Or.inl ⟨hf, (Except.ok.inj h).symm⟩
  next i hf =>
    split at h
    next hg => exact Or.inr (Or.inl ⟨i, hf, hg, (Except.ok.inj h).symm⟩)
    next st hg =>
      split at h
      next hcont => exact Or.inr (Or.inr (Or.inl ⟨i, st, hf, hg, hcont, (Except.ok.inj h).symm⟩))
      next hcont =>
        split at h
        next hexp =>
          split at h
          next j ht =>
            refine Or.inr (Or.inr (Or.inr (Or.inr ⟨i, st, j, hf, hg, ?_, hexp, ht, ?_⟩)))
            · simpa using hcont
            · exact (Except.ok.inj h).symm ▸ rfl
          next ht => exact absurd h (by simp)
        next hexp =>
          refine Or.inr (Or.inr (Or.inr (Or.inl ⟨i, st, hf, hg, ?_, ?_, ?_⟩)))
          · simpa using hcont
          · simpa using hexp
          · exact (Except.ok.inj h).symm

/-- Full case analysis of the linker's second `if` block. -/
theorem linkStepTo_cases (d : List (String × Nat)) (arr : List ControlFlowStage)
    (c : PrecedenceConstraint) :
    (dget d c.to_ref = none ∧ linkStepTo d arr c = arr) ∨
    (∃ j, dget d c.to_ref = some j ∧ arr.get? j = none ∧ linkStepTo d arr c = arr) ∨
    (∃ j st, dget d c.to_ref = some j ∧ arr.get? j = some st ∧
      st.precedence_from.contains c.from_ref = true ∧ linkStepTo d arr c = arr) ∨
    (∃ j st, dget d c.to_ref = some j ∧ arr.get? j = some st ∧
      st.precedence_from.contains c.from_ref = false ∧
      linkStepTo d arr c = updAt j (addPred c.from_ref) arr) := by
  unfold linkStepTo
  split
  next ht => exact Or.inl ⟨ht, rfl⟩
  next j ht =>
    split
    next hg => exact Or.inr (Or.inl ⟨j, ht, hg, rfl⟩)
    next st hg =>
      split
      next hcont => exact Or.inr (Or.inr (Or.inl ⟨j, st, ht, hg, hcont, rfl⟩))
      next hcont =>
        exact Or.inr (Or.inr (Or.inr ⟨j, st, ht, hg, by simpa using hcont, rfl⟩))

theorem map_eq_some_elim {o : Option α} {f : α → β} {b : β} (h : o.map f = some b) :
    ∃ a, o = some a ∧ f a = b := by
  cases o with
  | none => simp at h
  | some a => exact ⟨a, rfl, by simpa using h⟩

theorem map_field_updAt (i p : Nat) (f : ControlFlowStage → ControlFlowStage)
    (l : List ControlFlowStage) (g : ControlFlowStage → β) (h : ∀ a, g (f a) = g a) :
    ((updAt i f l).get? p).map g = (l.get? p).map g := by
  by_cases hp : i = p
  · subst hp
    rw [get?_updAt_self]
    cases l.get? i <;> simp [h]
  · rw [get?_updAt_ne _ _ _ _ hp]

theorem get?_updAt_mono (i : Nat) (f : ControlFlowStage → ControlFlowStage)
    (l : List ControlFlowStage) (p : Nat) (q : ControlFlowStage) (hq : l.get? p = some q) :
    ∃ q2, (updAt i f l).get? p = some q2 ∧ (q2 = q ∨ q2 = f q) := by
  by_cases hp : i = p
  · subst hp
    rw [get?_updAt_self, hq]
    exact ⟨f q, rfl, Or.inr rfl⟩
  · rw [get?_updAt_ne _ _ _ _ hp]
    exact ⟨q, hq, Or.inl rfl⟩

theorem linkStepFrom_precfrom (d : List (String × Nat)) (arr arr2 : List ControlFlowStage)
    (c : PrecedenceConstraint) (h : linkStepFrom d arr c = Except.ok arr2) (p : Nat) :
    (arr2.get? p).map (·.precedence_from) = (arr.get? p).map (·.precedence_from) := by
  rcases linkStepFrom_cases d arr arr2 c h with ⟨_, rfl⟩ | ⟨i, _, _, rfl⟩ |
    ⟨i, st, _, _, _, rfl⟩ | ⟨i, st, _, _, _, _, rfl⟩ | ⟨i, st, j, _, _, _, _, _, rfl⟩
  · rfl
  · rfl
  · rfl
  · exact map_field_updAt i p _ arr _ (fun a => rfl)
  · have h1 : ((updAt j (setCond c.expression) (updAt i (addSucc c.to_ref) arr)).get? p).map
        (·.precedence_from) =
        ((updAt i (addSucc c.to_ref) arr).get? p).map (·.precedence_from) :=
      map_field_updAt _ _ _ _ _ (fun a => rfl)
    have h2 : ((updAt i (addSucc c.to_ref) arr).get? p).map (·.precedence_from) =
        (arr.get? p).map (·.precedence_from) :=
      map_field_updAt _ _ _ _ _ (fun a => rfl)
    exact h1.trans h2

theorem linkStepTo_precto (d : List (String × Nat)) (arr : List ControlFlowStage)
    (c : PrecedenceConstraint) (p : Nat) :
    ((linkStepTo d arr c).get? p).map (·.precedence_to) =
      (arr.get? p).map (·.precedence_to) := by
  rcases linkStepTo_cases d arr c with ⟨_, he⟩ | ⟨j, _, _, he⟩ | ⟨j, st, _, _, _, he⟩ |
    ⟨j, st, _, _, _, he⟩ <;> rw [he]
  exact map_field_updAt _ _ _ _ _ (fun a => rfl)

theorem linkStepTo_condition (d : List (String × Nat)) (arr : List ControlFlowStage)
    (c : PrecedenceConstraint) (p : Nat) :
    ((linkStepTo d arr c).get? p).map (·.condition) = (arr.get? p).map (·.condition) := by
  rcases linkStepTo_cases d arr c with ⟨_, he⟩ | ⟨j, _, _, he⟩ | ⟨j, st, _, _, _, he⟩ |
    ⟨j, st, _, _, _, he⟩ <;> rw [he]
  exact map_field_updAt _ _ _ _ _ (fun a => rfl)

theorem linkStepFrom_mono (d : List (String × Nat)) (arr arr2 : List ControlFlowStage)
    (c : PrecedenceConstraint) (h : linkStepFrom d arr c = Except.ok arr2) (p : Nat)
    (q : ControlFlowStage) (hq : arr.get? p = some q) :
    ∃ q2, arr2.get? p = some q2 ∧ (∀ x ∈ q.precedence_to, x ∈ q2.precedence_to) ∧
      (∀ x ∈ q.precedence_from, x ∈ q2.precedence_from) := by
  rcases linkStepFrom_cases d arr arr2 c h with ⟨_, rfl⟩ | ⟨i, _, _, rfl⟩ |
    ⟨i, st, _, _, _, rfl⟩ | ⟨i, st, _, _, _, _, rfl⟩ | ⟨i, st, j, _, _, _, _, _, rfl⟩
  · exact ⟨q, hq, fun x hx => hx, fun x hx => hx⟩
  · exact ⟨q, hq, fun x hx => hx, fun x hx => hx⟩
  · exact ⟨q, hq, fun x hx => hx, fun x hx => hx⟩
  · rcases get?_updAt_mono i (addSucc c.to_ref) arr p q hq with ⟨q2, hq2, hc2⟩
    refine ⟨q2, hq2, ?_, ?_⟩
    · intro x hx
      rcases hc2 with rfl | rfl
      · exact hx
      · simp [addSucc]
        exact Or.inl hx
    · intro x hx
      rcases hc2 with rfl | rfl
      · exact hx
      · simpa [addSucc] using hx
  · rcases get?_updAt_mono i (addSucc c.to_ref) arr p q hq with ⟨q2, hq2, hc2⟩
    rcases get?_updAt_mono j (setCond c.expression) _ p q2 hq2 with ⟨q3, hq3, hc3⟩
    refine ⟨q3, hq3, ?_, ?_⟩
    · intro x hx
      have hx2 : x ∈ q2.precedence_to := by
        rcases hc2 with rfl | rfl
        · exact hx
        · simp [addSucc]
          exact Or.inl hx
      rcases hc3 with rfl | rfl
      · exact hx2
      · simpa [setCond] using hx2
    · intro x hx
      have hx2 : x ∈ q2.precedence_from := by
        rcases hc2 with rfl | rfl
        · exact hx
        · simpa [addSucc] using hx
      rcases hc3 with rfl | rfl
      · exact hx2
      · simpa [setCond] using hx2

theorem linkStepTo_mono (d : List (String × Nat)) (arr : List ControlFlowStage)
    (c : PrecedenceConstraint) (p : Nat) (q : ControlFlowStage) (hq : arr.get? p = some q) :
    ∃ q2, (linkStepTo d arr c).get? p = some q2 ∧
      (∀ x ∈ q.precedence_to, x ∈ q2.precedence_to) ∧
      (∀ x ∈ q.precedence_from, x ∈ q2.precedence_from) := by
  rcases linkStepTo_cases d arr c with ⟨_, he⟩ | ⟨j, _, _, he⟩ | ⟨j, st, _, _, _, he⟩ |
    ⟨j, st, _, _, _, he⟩ <;> rw [he]
  · exact ⟨q, hq, fun x hx => hx, fun x hx => hx⟩
  · exact ⟨q, hq, fun x hx => hx, fun x hx => hx⟩
  · exact ⟨q, hq, fun x hx => hx, fun x hx => hx⟩
  · rcases get?_updAt_mono j (addPred c.from_ref) arr p q hq with ⟨q2, hq2, hc2⟩
    refine ⟨q2, hq2, ?_, ?_⟩
    · intro x hx
      rcases hc2 with rfl | rfl
      · exact hx
      · simpa [addPred] using hx
    · intro x hx
      rcases hc2 with rfl | rfl
      · exact hx
      · simp [addPred]
        exact Or.inl hx

theorem linkStep_mono (d : List (String × Nat)) (arr arr2 : List ControlFlowStage)
    (c : PrecedenceConstraint) (h : linkStep d arr c = Except.ok arr2) (p : Nat)
    (q : ControlFlowStage) (hq : arr.get? p = some q) :
    ∃ q2, arr2.get? p = some q2 ∧ (∀ x ∈ q.precedence_to, x ∈ q2.precedence_to) ∧
      (∀ x ∈ q.precedence_from, x ∈ q2.precedence_from) := by
  unfold linkStep at h
  split at h
  · exact absurd h (by simp)
  next arrMid hMid =>
    rcases linkStepFrom_mono d arr arrMid c hMid p q hq with ⟨q2, hq2, hto, hfrom⟩
    rcases linkStepTo_mono d arrMid c p q2 hq2 with ⟨q3, hq3, hto2, hfrom2⟩
    rw [← Except.ok.inj h]
    exact ⟨q3, hq3, fun x hx => hto2 x (hto x hx), fun x hx => hfrom2 x (hfrom x hx)⟩

theorem contains_mem_str {l : List String} {a : String} (h : l.contains a = true) : a ∈ l := by
  simpa using h

theorem linkStepFrom_length (d : List (String × Nat)) (arr arr2 : List ControlFlowStage)
    (c : PrecedenceConstraint) (h : linkStepFrom d arr c = Except.ok arr2) :
    arr2.length = arr.length := by
  have := congrArg List.length (linkStepFrom_map_order d arr arr2 c h)
  simpa using this

theorem linkStep_length (d : List (String × Nat)) (arr arr2 : List ControlFlowStage)
    (c : PrecedenceConstraint) (h : linkStep d arr c = Except.ok arr2) :
    arr2.length = arr.length := by
  have := congrArg List.length (linkStep_map_order d arr arr2 c h)
  simpa using this

theorem linkStepFrom_adds (d : List (String × Nat)) (arr arr2 : List ControlFlowStage)
    (c : PrecedenceConstraint) (h : linkStepFrom d arr c = Except.ok arr2) (i : Nat)
    (hf : dget d c.from_ref = some i) (hlen : i < arr.length) :
    ∃ st2, arr2.get? i = some st2 ∧ c.to_ref ∈ st2.precedence_to := by
  rcases linkStepFrom_cases d arr arr2 c h with ⟨hf0, rfl⟩ | ⟨i0, hf0, hg0, rfl⟩ |
    ⟨i0, st, hf0, hg0, hcont, rfl⟩ | ⟨i0, st, hf0, hg0, hcont, hexp, rfl⟩ |
    ⟨i0, st, j, hf0, hg0, hcont, hexp, ht, rfl⟩
  · rw [hf0] at hf; cases hf
  · have he : i0 = i := Option.some.inj (hf0.symm.trans hf)
    subst he
    have := List.get?_eq_none.mp hg0
    omega
  · have he : i0 = i := Option.some.inj (hf0.symm.trans hf)
    subst he
    exact ⟨st, hg0, contains_mem_str hcont⟩
  · have he : i0 = i := Option.some.inj (hf0.symm.trans hf)
    subst he
    refine ⟨addSucc c.to_ref st, ?_, by simp [addSucc]⟩
    rw [get?_updAt_self, hg0]
    rfl
  · have he : i0 = i := Option.some.inj (hf0.symm.trans hf)
    subst he
    by_cases hj : j = i0
    · subst hj
      refine ⟨setCond c.expression (addSucc c.to_ref st), ?_, by simp [setCond, addSucc]⟩
      rw [get?_updAt_self, get?_updAt_self, hg0]
      rfl
    · refine ⟨addSucc c.to_ref st, ?_, by simp [addSucc]⟩
      rw [get?_updAt_ne _ _ _ _ hj, get?_updAt_self, hg0]
      rfl

theorem linkStepTo_adds (d : List (String × Nat)) (arr : List ControlFlowStage)
    (c : PrecedenceConstraint) (j : Nat) (ht : dget d c.to_ref = some j)
    (hlen : j < arr.length) :
    ∃ st2, (linkStepTo d arr c).get? j = some st2 ∧ c.from_ref ∈ st2.precedence_from := by
  rcases linkStepTo_cases d arr c with ⟨ht0, he⟩ | ⟨j0, ht0, hg0, he⟩ |
    ⟨j0, st, ht0, hg0, hcont, he⟩ | ⟨j0, st, ht0, hg0, hcont, he⟩ <;> rw [he]
  · rw [ht0] at ht; cases ht
  · have hj : j0 = j := Option.some.inj (ht0.symm.trans ht)
    subst hj
    have := List.get?_eq_none.mp hg0
    omega
  · have hj : j0 = j := Option.some.inj (ht0.symm.trans ht)
    subst hj
    exact ⟨st, hg0, contains_mem_str hcont⟩
  · have hj : j0 = j := Option.some.inj (ht0.symm.trans ht)
    subst hj
    refine ⟨addPred c.from_ref st, ?_, by simp [addPred]⟩
    rw [get?_updAt_self, hg0]
    rfl

theorem linkStep_adds_from (d : List (String × Nat)) (arr arr2 : List ControlFlowStage)
    (c : PrecedenceConstraint) (h : linkStep d arr c = Except.ok arr2) (i : Nat)
    (hf : dget d c.from_ref = some i) (hlen : i < arr.length) :
    ∃ st2, arr2.get? i = some st2 ∧ c.to_ref ∈ st2.precedence_to := by
  unfold linkStep at h
  split at h
  · exact absurd h (by simp)
  next arrMid hMid =>
    rcases linkStepFrom_adds d arr arrMid c hMid i hf hlen with ⟨st2, hst2, hmem⟩
    rcases linkStepTo_mono d arrMid c i st2 hst2 with ⟨st3, hst3, hto, _⟩
    rw [← Except.ok.inj h]
    exact ⟨st3, hst3, hto _ hmem⟩

theorem linkStep_adds_to (d : List (String × Nat)) (arr arr2 : List ControlFlowStage)
    (c : PrecedenceConstraint) (h : linkStep d arr c = Except.ok arr2) (j : Nat)
    (ht : dget d c.to_ref = some j) (hlen : j < arr.length) :
    ∃ st2, arr2.get? j = some st2 ∧ c.from_ref ∈ st2.precedence_from := by
  unfold linkStep at h
  split at h
  · exact absurd h (by simp)
  next arrMid hMid =>
    have hlen2 : j < arrMid.length := by rw [linkStepFrom_length d arr arrMid c hMid]; exact hlen
    rcases linkStepTo_adds d arrMid c j ht hlen2 with ⟨st2, hst2, hmem⟩
    rw [← Except.ok.inj h]
    exact ⟨st2, hst2, hmem⟩

/-- Every successor entry of every stage originates from a constraint in
`cs` whose source reference resolves (via `d`) to that stage. -/
def ProvTo (cs : List PrecedenceConstraint) (d : List (String × Nat))
    (arr : List ControlFlowStage) : Prop :=
  ∀ p st, arr.get? p = some st → ∀ r ∈ st.precedence_to,
    ∃ c2, c2 ∈ cs ∧ c2.to_ref = r ∧ dget d c2.from_ref = some p

/-- Every predecessor entry of every stage originates from a constraint in
`cs` whose target reference resolves (via `d`) to that stage. -/
def ProvFrom (cs : List PrecedenceConstraint) (d : List (String × Nat))
    (arr : List ControlFlowStage) : Prop :=
  ∀ p st, arr.get? p = some st → ∀ r ∈ st.precedence_from,
    ∃ c2, c2 ∈ cs ∧ c2.from_ref = r ∧ dget d c2.to_ref = some p

/-- Every set condition of every stage is the truthy guard expression of
a constraint in `cs` whose target reference resolves (via `d`) to that
stage. -/
def ProvCond (cs : List PrecedenceConstraint) (d : List (String × Nat))
    (arr : List ControlFlowStage) : Prop :=
  ∀ p st, arr.get? p = some st → st.condition = none ∨
    ∃ c2, c2 ∈ cs ∧ pyTruthy c2.expression = true ∧ dget d c2.to_ref = some p ∧
      st.condition = c2.expression

theorem linkStepFrom_provTo (cs : List PrecedenceConstraint) (d : List (String × Nat))
    (arr arr2 : List ControlFlowStage) (c : PrecedenceConstraint)
    (h : linkStepFrom d arr c = Except.ok arr2) (hc : c ∈ cs) (hP : ProvTo cs d arr) :
    ProvTo cs d arr2 := by
  have key : ∀ (i : Nat), dget d c.from_ref = some i →
      ProvTo cs d (updAt i (addSucc c.to_ref) arr) := by
    intro i hf p st2 hst2 r hr
    by_cases hp : i = p
    · subst hp
      rw [get?_updAt_self] at hst2
      rcases map_eq_some_elim hst2 with ⟨st0, hst0, hfeq⟩
      rw [← hfeq] at hr
      rcases (by simpa [addSucc] using hr : r ∈ st0.precedence_to ∨ r = c.to_ref) with h1 | rfl
      · exact hP i st0 hst0 r h1
      · exact ⟨c, hc, rfl, hf⟩
    · rw [get?_updAt_ne _ _ _ _ hp] at hst2
      exact hP p st2 hst2 r hr
  rcases linkStepFrom_cases d arr arr2 c h with ⟨_, rfl⟩ | ⟨i, _, _, rfl⟩ |
    ⟨i, st, _, _, _, rfl⟩ | ⟨i, st, hf0, _, _, _, rfl⟩ | ⟨i, st, j, hf0, _, _, _, _, rfl⟩
  · exact hP
  · exact hP
  · exact hP
  · exact key i hf0
  · intro p st2 hst2 r hr
    have hpoint : ((updAt j (setCond c.expression) (updAt i (addSucc c.to_ref) arr)).get? p).map
        (·.precedence_to) = ((updAt i (addSucc c.to_ref) arr).get? p).map (·.precedence_to) :=
      map_field_updAt _ _ _ _ _ (fun a => rfl)
    rw [hst2] at hpoint
    rcases map_eq_some_elim hpoint.symm with ⟨st1, hst1, hfeq⟩
    have hfeq2 : st1.precedence_to = st2.precedence_to := hfeq
    rw [← hfeq2] at hr
    exact key i hf0 p st1 hst1 r hr

theorem linkStepTo_provTo (cs : List PrecedenceConstraint) (d : List (String × Nat))
    (arr : List ControlFlowStage) (c : PrecedenceConstraint) (hP : ProvTo cs d arr) :
    ProvTo cs d (linkStepTo d arr c) := by
  intro p st2 hst2 r hr
  have hpoint := linkStepTo_precto d arr c p
  rw [hst2] at hpoint
  rcases map_eq_some_elim hpoint.symm with ⟨st1, hst1, hfeq⟩
  have hfeq2 : st1.precedence_to = st2.precedence_to := hfeq
  rw [← hfeq2] at hr
  exact hP p st1 hst1 r hr

theorem linkStep_provTo (cs : List PrecedenceConstraint) (d : List (String × Nat))
    (arr arr2 : List ControlFlowStage) (c : PrecedenceConstraint)
    (h : linkStep d arr c = Except.ok arr2) (hc : c ∈ cs) (hP : ProvTo cs d arr) :
    ProvTo cs d arr2 := by
  unfold linkStep at h
  split at h
  · exact absurd h (by simp)
  next arrMid hMid =>
    rw [← Except.ok.inj h]
    exact linkStepTo_provTo cs d arrMid c (linkStepFrom_provTo cs d arr arrMid c hMid hc hP)

theorem linkStepFrom_provFrom (cs : List PrecedenceConstraint) (d : List (String × Nat))
    (arr arr2 : List ControlFlowStage) (c : PrecedenceConstraint)
    (h : linkStepFrom d arr c = Except.ok arr2) (hP : ProvFrom cs d arr) :
    ProvFrom cs d arr2 := by
  intro p st2 hst2 r hr
  have hpoint := linkStepFrom_precfrom d arr arr2 c h p
  rw [hst2] at hpoint
  rcases map_eq_some_elim hpoint.symm with ⟨st1, hst1, hfeq⟩
  have hfeq2 : st1.precedence_from = st2.precedence_from := hfeq
  rw [← hfeq2] at hr
  exact hP p st1 hst1 r hr

theorem linkStepTo_provFrom (cs : List PrecedenceConstraint) (d : List (String × Nat))
    (arr : List ControlFlowStage) (c : PrecedenceConstraint) (hc : c ∈ cs)
    (hP : ProvFrom cs d arr) : ProvFrom cs d (linkStepTo d arr c) := by
  rcases linkStepTo_cases d arr c with ⟨_, he⟩ | ⟨j, _, _, he⟩ | ⟨j, st, _, _, _, he⟩ |
    ⟨j, st, ht0, hg0, _, he⟩ <;> rw [he]
  · exact hP
  · exact hP
  · exact hP
  · intro p st2 hst2 r hr
    by_cases hp : j = p
    · subst hp
      rw [get?_updAt_self] at hst2
      rcases map_eq_some_elim hst2 with ⟨st0, hst0, hfeq⟩
      rw [← hfeq] at hr
      rcases (by simpa [addPred] using hr : r ∈ st0.precedence_from ∨ r = c.from_ref) with h1 | rfl
      · exact hP j st0 hst0 r h1
      · exact ⟨c, hc, rfl, ht0⟩
    · rw [get?_updAt_ne _ _ _ _ hp] at hst2
      exact hP p st2 hst2 r hr

theorem linkStep_provFrom (cs : List PrecedenceConstraint) (d : List (String × Nat))
    (arr arr2 : List ControlFlowStage) (c : PrecedenceConstraint)
    (h : linkStep d arr c = Except.ok arr2) (hc : c ∈ cs) (hP : ProvFrom cs d arr) :
    ProvFrom cs d arr2 := by
  unfold linkStep at h
  split at h
  · exact absurd h (by simp)
  next arrMid hMid =>
    rw [← Except.ok.inj h]
    exact linkStepTo_provFrom cs d arrMid c hc (linkStepFrom_provFrom cs d arr arrMid c hMid hP)

theorem linkStepFrom_provCond (cs : List PrecedenceConstraint) (d : List (String × Nat))
    (arr arr2 : List ControlFlowStage) (c : PrecedenceConstraint)
    (h : linkStepFrom d arr c = Except.ok arr2) (hc : c ∈ cs) (hP : ProvCond cs d arr) :
    ProvCond cs d arr2 := by
  rcases linkStepFrom_cases d arr arr2 c h with ⟨_, rfl⟩ | ⟨i, _, _, rfl⟩ |
    ⟨i, st, _, _, _, rfl⟩ | ⟨i, st, _, _, _, _, rfl⟩ |
    ⟨i, st, j, hf0, hg0, hcont, hexp, ht0, rfl⟩
  · exact hP
  · exact hP
  · exact hP
  · intro p st2 hst2
    have hpoint : ((updAt i (addSucc c.to_ref) arr).get? p).map (·.condition) =
        (arr.get? p).map (·.condition) := map_field_updAt _ _ _ _ _ (fun a => rfl)
    rw [hst2] at hpoint
    rcases map_eq_some_elim hpoint.symm with ⟨st1, hst1, hfeq⟩
    have hfeq2 : st1.condition = st2.condition := hfeq
    rw [← hfeq2]
    exact hP p st1 hst1
  · intro p st2 hst2
    by_cases hp : j = p
    · subst hp
      rw [get?_updAt_self] at hst2
      rcases map_eq_some_elim hst2 with ⟨st0, _, hfeq⟩
      right
      exact ⟨c, hc, hexp, ht0, by rw [← hfeq]; rfl⟩
    · rw [get?_updAt_ne _ _ _ _ hp] at hst2
      have hpoint : ((updAt i (addSucc c.to_ref) arr).get? p).map (·.condition) =
          (arr.get? p).map (·.condition) := map_field_updAt _ _ _ _ _ (fun a => rfl)
      rw [hst2] at hpoint
      rcases map_eq_some_elim hpoint.symm with ⟨st1, hst1, hfeq⟩
      have hfeq2 : st1.condition = st2.condition := hfeq
      rw [← hfeq2]
      exact hP p st1 hst1

theorem linkStep_provCond (cs : List PrecedenceConstraint) (d : List (String × Nat))
    (arr arr2 : List ControlFlowStage) (c : PrecedenceConstraint)
    (h : linkStep d arr c = Except.ok arr2) (hc : c ∈ cs) (hP : ProvCond cs d arr) :
    ProvCond cs d arr2 := by
  unfold linkStep at h
  split at h
  · exact absurd h (by simp)
  next arrMid hMid =>
    rw [← Except.ok.inj h]
    intro p st2 hst2
    have hpoint := linkStepTo_condition d arrMid c p
    rw [hst2] at hpoint
    rcases map_eq_some_elim hpoint.symm with ⟨st1, hst1, hfeq⟩
    have hfeq2 : st1.condition = st2.condition := hfeq
    rw [← hfeq2]
    exact linkStepFrom_provCond cs d arr arrMid c hMid hc hP p st1 hst1

theorem linkLoop_length (d : List (String × Nat)) (rest : List PrecedenceConstraint)
    (arr out : List ControlFlowStage) (h : linkLoop d rest arr = Except.ok out) :
    out.length = arr.length := by
  have := congrArg List.length (linkLoop_map_order d rest arr out h)
  simpa using this

theorem linkLoop_mono (d : List (String × Nat)) (rest : List PrecedenceConstraint)
    (arr out : List ControlFlowStage) (h : linkLoop d rest arr = Except.ok out) (p : Nat)
    (q : ControlFlowStage) (hq : arr.get? p = some q) :
    ∃ q2, out.get? p = some q2 ∧ (∀ x ∈ q.precedence_to, x ∈ q2.precedence_to) ∧
      (∀ x ∈ q.precedence_from, x ∈ q2.precedence_from) := by
  induction rest generalizing arr q with
  | nil =>
    rw [linkLoop] at h
    exact ⟨q, (Except.ok.inj h) ▸ hq, fun x hx => hx, fun x hx => hx⟩
  | cons c cs ih =>
    rw [linkLoop] at h
    split at h
    next arr2 h2 =>
      rcases linkStep_mono d arr arr2 c h2 p q hq with ⟨q2, hq2, hto, hfrom⟩
      rcases ih arr2 h q2 hq2 with ⟨q3, hq3, hto2, hfrom2⟩
      exact ⟨q3, hq3, fun x hx => hto2 x (hto x hx), fun x hx => hfrom2 x (hfrom x hx)⟩
    next => exact absurd h (by simp)

theorem linkLoop_adds_from (d : List (String × Nat)) (rest : List PrecedenceConstraint)
    (c : PrecedenceConstraint) (i : Nat) :
    ∀ arr out, c ∈ rest → linkLoop d rest arr = Except.ok out →
    dget d c.from_ref = some i → i < arr.length →
    ∃ st2, out.get? i = some st2 ∧ c.to_ref ∈ st2.precedence_to := by
  induction rest with
  | nil => intro arr out hcm h hf hlen; simp at hcm
  | cons c0 cs ih =>
    intro arr out hcm h hf hlen
    rw [linkLoop] at h
    split at h
    next arr2 h2 =>
      rcases List.mem_cons.mp hcm with rfl | hmem
      · rcases linkStep_adds_from d arr arr2 c h2 i hf hlen with ⟨st2, hst2, hr⟩
        rcases linkLoop_mono d cs arr2 out h i st2 hst2 with ⟨st3, hst3, hto, _⟩
        exact ⟨st3, hst3, hto _ hr⟩
      · exact ih arr2 out hmem h hf (by rw [linkStep_length d arr arr2 c0 h2]; exact hlen)
    next => exact absurd h (by simp)

theorem linkLoop_adds_to (d : List (String × Nat)) (rest : List PrecedenceConstraint)
    (c : PrecedenceConstraint) (j : Nat) :
    ∀ arr out, c ∈ rest → linkLoop d rest arr = Except.ok out →
    dget d c.to_ref = some j → j < arr.length →
    ∃ st2, out.get? j = some st2 ∧ c.from_ref ∈ st2.precedence_from := by
  induction rest with
  | nil => intro arr out hcm h ht hlen; simp at hcm
  | cons c0 cs ih =>
    intro arr out hcm h ht hlen
    rw [linkLoop] at h
    split at h
    next arr2 h2 =>
      rcases List.mem_cons.mp hcm with rfl | hmem
      · rcases linkStep_adds_to d arr arr2 c h2 j ht hlen with ⟨st2, hst2, hr⟩
        rcases linkLoop_mono d cs arr2 out h j st2 hst2 with ⟨st3, hst3, _, hfrom⟩
        exact ⟨st3, hst3, hfrom _ hr⟩
      · exact ih arr2 out hmem h ht (by rw [linkStep_length d arr arr2 c0 h2]; exact hlen)
    next => exact absurd h (by simp)

theorem linkLoop_provTo (S : List PrecedenceConstraint) (d : List (String × Nat))
    (rest : List PrecedenceConstraint) :
    ∀ arr out, (∀ x ∈ rest, x ∈ S) → linkLoop d rest arr = Except.ok out →
    ProvTo S d arr → ProvTo S d out := by
  induction rest with
  | nil =>
    intro arr out _ h hP
    rw [linkLoop] at h
    exact (Except.ok.inj h) ▸ hP
  | cons c cs ih =>
    intro arr out hsub h hP
    rw [linkLoop] at h
    split at h
    next arr2 h2 =>
      exact ih arr2 out (fun x hx => hsub x (List.mem_cons_of_mem c hx)) h
        (linkStep_provTo S d arr arr2 c h2 (hsub c (List.mem_cons_self c cs)) hP)
    next => exact absurd h (by simp)

theorem linkLoop_provFrom (S : List PrecedenceConstraint) (d : List (String × Nat))
    (rest : List PrecedenceConstraint) :
    ∀ arr out, (∀ x ∈ rest, x ∈ S) → linkLoop d rest arr = Except.ok out →
    ProvFrom S d arr → ProvFrom S d out := by
  induction rest with
  | nil =>
    intro arr out _ h hP
    rw [linkLoop] at h
    exact (Except.ok.inj h) ▸ hP
  | cons c cs ih =>
    intro arr out hsub h hP
    rw [linkLoop] at h
    split at h
    next arr2 h2 =>
      exact ih arr2 out (fun x hx => hsub x (List.mem_cons_of_mem c hx)) h
        (linkStep_provFrom S d arr arr2 c h2 (hsub c (List.mem_cons_self c cs)) hP)
    next => exact absurd h (by simp)

theorem linkLoop_provCond (S : List PrecedenceConstraint) (d : List (String × Nat))
    (rest : List PrecedenceConstraint) :
    ∀ arr out, (∀ x ∈ rest, x ∈ S) → linkLoop d rest arr = Except.ok out →
    ProvCond S d arr → ProvCond S d out := by
  induction rest with
  | nil =>
    intro arr out _ h hP
    rw [linkLoop] at h
    exact (Except.ok.inj h) ▸ hP
  | cons c cs ih =>
    intro arr out hsub h hP
    rw [linkLoop] at h
    split at h
    next arr2 h2 =>
      exact ih arr2 out (fun x hx => hsub x (List.mem_cons_of_mem c hx)) h
        (linkStep_provCond S d arr arr2 c h2 (hsub c (List.mem_cons_self c cs)) hP)
    next => exact absurd h (by simp)

/-- C1 counterexample input: two stages and three constraints — two guarded
duplicates `StepA → StepB` and one with an unresolvable target. -/
def cexStages : List ControlFlowStage := [mkStage 1 "StepA", mkStage 2 "StepB"]

/-- See `cexStages`. -/
def cexConstraints : List PrecedenceConstraint :=
  [mkConstraint "Package\\StepA" "Package\\StepB" (some "e1"),
   mkConstraint "Package\\StepA" "Package\\StepB" (some "e2"),
   mkConstraint "Package\\StepA" "Package\\MissingX" none]

/-- C1 counterexample: linking `cexStages` with `cexConstraints` (i) appends
the unresolvable target reference `Package\MissingX` to `StepA`'s successor
list even though it resolves to no stage — so unresolved-endpoint
constraints do contribute entries — and (ii) leaves `StepB.condition =
"e1"`, the guard of the **first** `StepA → StepB` constraint, although the
last guarded constraint sharing that target carries `"e2"` — so last-wins
overwrite semantics fails for duplicate source/target pairs. -/
theorem linker_claim_counterexample :
    linkStages cexStages cexConstraints = Except.ok
      [{ order := 1, name := "StepA", stage_type := "SqlTask", description := none, tasks := []
         precedence_from := [], precedence_to := ["Package\\StepB", "Package\\MissingX"]
         condition := none },
       { order := 2, name := "StepB", stage_type := "SqlTask", description := none, tasks := []
         precedence_from := ["Package\\StepA"], precedence_to := [], condition := some "e1" }] ∧
    dget (linkDict cexStages cexConstraints) "Package\\MissingX" = none ∧
    cexConstraints.map (·.expression) = [some "e1", some "e2", none] := by
  refine ⟨by rfl, by rfl, by rfl⟩

/-- C1 amended: for stages with fresh (empty) link fields, a successful run
of the linker yields a stage list of the same length in which (i) every
constraint whose source reference resolves has its target reference among
that source stage's successors — regardless of whether the target resolves —
and every constraint whose target reference resolves has its source
reference among that target stage's predecessors — regardless of whether
the source resolves; (ii) successor and predecessor entries originate only
from such constraints; and (iii) a stage's condition, when set, is the
truthy guard expression of some constraint whose target reference resolves
to it (for duplicate guarded source/target pairs the first guard is kept,
not the last — see the counterexample). -/
theorem linker_effects_amended (stages out : List ControlFlowStage)
    (cs : List PrecedenceConstraint)
    (hinit : ∀ st ∈ stages, st.precedence_to = [] ∧ st.precedence_from = [] ∧
      st.condition = none)
    (h : linkStages stages cs = Except.ok out) :
    out.length = stages.length ∧
    (∀ c ∈ cs, ∀ i, dget (linkDict stages cs) c.from_ref = some i →
      ∃ st, out.get? i = some st ∧ c.to_ref ∈ st.precedence_to) ∧
    (∀ c ∈ cs, ∀ j, dget (linkDict stages cs) c.to_ref = some j →
      ∃ st, out.get? j = some st ∧ c.from_ref ∈ st.precedence_from) ∧
    ProvTo cs (linkDict stages cs) out ∧
    ProvFrom cs (linkDict stages cs) out ∧
    ProvCond cs (linkDict stages cs) out := by
  unfold linkStages at h
  refine ⟨linkLoop_length _ _ _ _ h, ?_, ?_, ?_, ?_, ?_⟩
  · intro c hc i hf
    exact linkLoop_adds_from (linkDict stages cs) cs c i stages out hc h hf
      (dget_linkDict_lt stages cs _ i hf)
  · intro c hc j ht
    exact linkLoop_adds_to (linkDict stages cs) cs c j stages out hc h ht
      (dget_linkDict_lt stages cs _ j ht)
  · refine linkLoop_provTo cs (linkDict stages cs) cs stages out (fun x hx => hx) h ?_
    intro p st hst r hr
    rw [(hinit st (List.get?_mem hst)).1] at hr
    simp at hr
  · refine linkLoop_provFrom cs (linkDict stages cs) cs stages out (fun x hx => hx) h ?_
    intro p st hst r hr
    rw [(hinit st (List.get?_mem hst)).2.1] at hr
    simp at hr
  · refine linkLoop_provCond cs (linkDict stages cs) cs stages out (fun x hx => hx) h ?_
    intro p st hst
    exact Or.inl (hinit st (List.get?_mem hst)).2.2

/-- The linked output of the C1 witness input. -/
def linkedDemoOut : List ControlFlowStage :=
  [{ order := 1, name := "StepA", stage_type := "SqlTask", description := none, tasks := []
     precedence_from := [], precedence_to := ["Package\\StepB"], condition := none },
   { order := 2, name := "StepB", stage_type := "SqlTask", description := none, tasks := []
     precedence_from := ["Package\\StepA"], precedence_to := [], condition := none }]

/-- Witness for C1 amended: one unguarded constraint between two fresh
stages links both directions. -/
theorem linker_effects_amended_witness :
    linkStages [mkStage 1 "StepA", mkStage 2 "StepB"]
      [mkConstraint "Package\\StepA" "Package\\StepB" none] = Except.ok linkedDemoOut ∧
    linkedDemoOut.length = 2 := by
  refine ⟨by rfl, ?_⟩
  have h := linker_effects_amended [mkStage 1 "StepA", mkStage 2 "StepB"] linkedDemoOut
    [mkConstraint "Package\\StepA" "Package\\StepB" none] (by decide) (by rfl)
  exact h.1

end Dtsx
